import Mathlib

/-!
Verification of the data-fetching core of `package-data-fetching`
(`BaseFetcher` and `RealtimeManager`).

The TypeScript source is shallowly embedded: JavaScript runtime values that
flow through the fetchers are modelled by the inductive `JsValue` (JSON
numbers are modelled as exact rationals; none of the modelled code paths
performs floating-point arithmetic on them, so decimal literals such as
`99.99` are represented exactly).  Promises that may reject are modelled by
`Except Unit`; the caches of `BaseFetcher` are modelled as association lists
with JavaScript `Map` semantics (insertion order, overwrite in place); each
call to `fetch` is modelled by consuming one prescribed response from the
environment, and each call to `Date.now()` by an explicit clock argument.
-/

/-- Characters that cannot appear literally in this file are named here. -/
def quoteChar : Char := Char.ofNat 34

def lbraceChar : Char := Char.ofNat 123

def rbraceChar : Char := Char.ofNat 125

def backslashChar : Char := Char.ofNat 92

/-- JSON whitespace (ECMA-404): space, tab, line feed, carriage return. -/
def isJsonWs (c : Char) : Bool :=
  c = ' ' || c = Char.ofNat 9 || c = Char.ofNat 10 || c = Char.ofNat 13

/-- Whitespace recognised by JavaScript `String.prototype.trim` (the subset
that can occur in the payloads this development manipulates). -/
def isJsWs (c : Char) : Bool :=
  isJsonWs c || c = Char.ofNat 11 || c = Char.ofNat 12

def dropLeadingWs (cs : List Char) : List Char :=
  cs.dropWhile isJsWs

/-- Model of JavaScript `String.prototype.trim`. -/
def jsTrim (s : String) : String :=
  String.mk ((dropLeadingWs s.toList.reverse).reverse |> dropLeadingWs)

/-- Split a character list on a separator character (occurrences of the
separator delimit fields; leading/trailing/adjacent separators produce
empty fields, as JavaScript `split` does). -/
def splitOnChar (sep : Char) : List Char → List (List Char)
  | [] => [[]]
  | c :: rest =>
    let r := splitOnChar sep rest
    if c = sep then [] :: r
    else (c :: r.headD []) :: r.tail

/-- Model of JavaScript `String.prototype.split`: the source only splits on
the single-character separators `"\n"`, `","` and `":"`, so the model is
defined for those. -/
def jsSplit (s sep : String) : List String :=
  match sep.toList with
  | [c] => (splitOnChar c s.toList).map fun l => String.mk l
  | _ => [s]

/-- Does `pat` occur at the head of `cs`? -/
def headMatches : List Char → List Char → Bool
  | [], _ => true
  | _ :: _, [] => false
  | p :: ps, c :: cs => p = c && headMatches ps cs

/-- Does `pat` occur anywhere in `cs`?  Model of `String.prototype.includes`
restricted to the character lists of the two strings. -/
def hasSub (cs pat : List Char) : Bool :=
  match cs with
  | [] => pat.isEmpty
  | _ :: rest => headMatches pat cs || hasSub rest pat

/-- Model of JavaScript `String.prototype.includes`. -/
def jsIncludes (s pat : String) : Bool :=
  hasSub s.toList pat.toList

/-- Model of `Number.parseInt(s, 10)`: skip leading whitespace, optional
sign, then a maximal run of decimal digits; `none` models `NaN`. -/
def jsParseInt (s : String) : Option Int :=
  let cs := dropLeadingWs s.toList
  let (sign, cs1) :=
    match cs with
    | '-' :: rest => ((-1 : Int), rest)
    | '+' :: rest => ((1 : Int), rest)
    | _ => ((1 : Int), cs)
  let digits := cs1.takeWhile Char.isDigit
  if digits.isEmpty then none
  else some (sign * (digits.foldl (fun acc c => acc * 10 + (c.toNat - 48)) (0 : Nat) : Nat))

/-- JavaScript runtime values occurring in the modelled code paths.
`undefined` is JavaScript `undefined` (never produced by `JSON.parse`, but
produced by property access).  A number is kept as the pair
mantissa/decimal exponent exactly as written in its source literal
(`num m e` denotes `m * 10 ^ e`, so `99.99` is `num 9999 (-2)` and `1` is
`num 1 0`); none of the modelled code paths computes with numbers, so no
arithmetic on this representation is needed. -/
inductive JsValue where
  | null : JsValue
  | undefined : JsValue
  | bool : Bool → JsValue
  | num : Int → Int → JsValue
  | str : String → JsValue
  | arr : List JsValue → JsValue
  | obj : List (String × JsValue) → JsValue

/-- JavaScript truthiness for the modelled values. -/
def truthy : JsValue → Bool
  | .null => false
  | .undefined => false
  | .bool b => b
  | .num m _ => decide (m ≠ 0)
  | .str s => !s.isEmpty
  | .arr _ => true
  | .obj _ => true

def isArray : JsValue → Bool
  | .arr _ => true
  | _ => false

/-- First binding of `k` in an association list. -/
def alistGet {α : Type} (m : List (String × α)) (k : String) : Option α :=
  match m with
  | [] => none
  | (k1, v) :: rest => if k1 = k then some v else alistGet rest k

/-- Overwrite the first binding of `k`, or append a new one: JavaScript
`Map.set` / object property assignment (insertion order preserved). -/
def alistSet {α : Type} (m : List (String × α)) (k : String) (v : α) :
    List (String × α) :=
  match m with
  | [] => [(k, v)]
  | (k1, v1) :: rest =>
    if k1 = k then (k1, v) :: rest else (k1, v1) :: alistSet rest k v

/-- Property access `recv[k]`: throws `TypeError` when the receiver is
`null` or `undefined`; yields `undefined` for a missing property and for
any receiver that has no own properties in the modelled payloads. -/
def jsGet (recv : JsValue) (k : String) : Except Unit JsValue :=
  match recv with
  | .null => .error ()
  | .undefined => .error ()
  | .obj fields => .ok ((alistGet fields k).getD .undefined)
  | _ => .ok .undefined

/-- Optional chaining `recv?.[k]`: `undefined` when the receiver is
`null`/`undefined`, plain access otherwise. -/
def jsGetOpt (recv : JsValue) (k : String) : JsValue :=
  match recv with
  | .null => .undefined
  | .undefined => .undefined
  | .obj fields => (alistGet fields k).getD .undefined
  | _ => .undefined

def skipJsonWs (cs : List Char) : List Char :=
  cs.dropWhile isJsonWs

def hexDigitVal (c : Char) : Option Nat :=
  if c.isDigit then some (c.toNat - 48)
  else if 'a' ≤ c && c ≤ 'f' then some (c.toNat - 97 + 10)
  else if 'A' ≤ c && c ≤ 'F' then some (c.toNat - 65 + 10)
  else none

/-- Parse the remainder of a JSON string literal (opening quote already
consumed), returning the decoded characters and the rest of the input. -/
def pStringRest (acc : List Char) : List Char → Option (String × List Char)
  | [] => none
  | c :: cs =>
    if c = quoteChar then some (String.mk acc.reverse, cs)
    else if c = backslashChar then
      match cs with
      | [] => none
      | e :: cs1 =>
        if e = quoteChar then pStringRest (quoteChar :: acc) cs1
        else if e = backslashChar then pStringRest (backslashChar :: acc) cs1
        else if e = '/' then pStringRest ('/' :: acc) cs1
        else if e = 'b' then pStringRest (Char.ofNat 8 :: acc) cs1
        else if e = 'f' then pStringRest (Char.ofNat 12 :: acc) cs1
        else if e = 'n' then pStringRest (Char.ofNat 10 :: acc) cs1
        else if e = 'r' then pStringRest (Char.ofNat 13 :: acc) cs1
        else if e = 't' then pStringRest (Char.ofNat 9 :: acc) cs1
        else if e = 'u' then
          match cs1 with
          | h1 :: h2 :: h3 :: h4 :: cs2 =>
            match hexDigitVal h1, hexDigitVal h2, hexDigitVal h3, hexDigitVal h4 with
            | some a, some b, some c3, some d =>
              pStringRest (Char.ofNat (((a * 16 + b) * 16 + c3) * 16 + d) :: acc) cs2
            | _, _, _, _ => none
          | _ => none
        else none
    else if c.toNat < 32 then none
    else pStringRest (c :: acc) cs

/-- JSON integer part: `0`, or a nonzero digit followed by digits. -/
def pJsonIntDigits : List Char → Option (Nat × List Char)
  | [] => none
  | c :: cs =>
    if c = '0' then some (0, cs)
    else if c.isDigit then
      let more := cs.takeWhile Char.isDigit
      let rest := cs.dropWhile Char.isDigit
      some ((c :: more).foldl (fun acc d => acc * 10 + (d.toNat - 48)) 0, rest)
    else none

/-- Parse a JSON number starting at `cs` (first char is `-` or a digit);
the value is returned as mantissa and decimal exponent. -/
def pNumber (cs : List Char) : Option ((Int × Int) × List Char) :=
  let (sign, cs1) :=
    match cs with
    | '-' :: rest => ((-1 : Int), rest)
    | _ => ((1 : Int), cs)
  match pJsonIntDigits cs1 with
  | none => none
  | some (ip, cs2) =>
    let (fracDigits, cs3) :=
      match cs2 with
      | '.' :: csf =>
        let fd := csf.takeWhile Char.isDigit
        if fd.isEmpty then (([] : List Char), cs2)
        else (fd, csf.dropWhile Char.isDigit)
      | _ => ([], cs2)
    let fnum : Nat := fracDigits.foldl (fun acc d => acc * 10 + (d.toNat - 48)) 0
    let mant : Int := sign * (ip * 10 ^ fracDigits.length + fnum)
    match pJsonExp cs3 with
    | none => none
    | some (e, cs4) => some ((mant, e - fracDigits.length), cs4)
where
  /-- Optional exponent part; yields the exponent (0 when absent). -/
  pJsonExp (cs : List Char) : Option (Int × List Char) :=
    match cs with
    | c :: cs1 =>
      if c = 'e' || c = 'E' then
        let (es, cs2) :=
          match cs1 with
          | '-' :: r => ((-1 : Int), r)
          | '+' :: r => ((1 : Int), r)
          | _ => ((1 : Int), cs1)
        let ds := cs2.takeWhile Char.isDigit
        if ds.isEmpty then none
        else some (es * (ds.foldl (fun acc d => acc * 10 + (d.toNat - 48)) (0 : Nat) : Nat),
                   cs2.dropWhile Char.isDigit)
      else some (0, cs)
    | [] => some (0, [])

mutual

/-- Fuelled JSON value parser (model of `JSON.parse`, ECMA-404 grammar). -/
def pValue : Nat → List Char → Option (JsValue × List Char)
  | 0, _ => none
  | fuel + 1, cs =>
    match skipJsonWs cs with
    | [] => none
    | c :: cs1 =>
      if c = lbraceChar then
        match skipJsonWs cs1 with
        | c2 :: cs2 =>
          if c2 = rbraceChar then some (.obj [], cs2)
          else pMembers fuel [] (c2 :: cs2)
        | [] => none
      else if c = '[' then
        match skipJsonWs cs1 with
        | ']' :: cs2 => some (.arr [], cs2)
        | cs2 => pElems fuel [] cs2
      else if c = quoteChar then
        match pStringRest [] cs1 with
        | some (s, cs2) => some (.str s, cs2)
        | none => none
      else if c = 't' then
        if headMatches "rue".toList cs1 then some (.bool true, cs1.drop 3) else none
      else if c = 'f' then
        if headMatches "alse".toList cs1 then some (.bool false, cs1.drop 4) else none
      else if c = 'n' then
        if headMatches "ull".toList cs1 then some (.null, cs1.drop 3) else none
      else if c = '-' || c.isDigit then
        match pNumber (c :: cs1) with
        | some ((m, e), cs2) => some (.num m e, cs2)
        | none => none
      else none

/-- Members of a JSON object after the opening brace (at least one). -/
def pMembers : Nat → List (String × JsValue) → List Char →
    Option (JsValue × List Char)
  | 0, _, _ => none
  | fuel + 1, acc, cs =>
    match skipJsonWs cs with
    | c :: cs1 =>
      if c = quoteChar then
        match pStringRest [] cs1 with
        | some (k, cs2) =>
          match skipJsonWs cs2 with
          | ':' :: cs3 =>
            match pValue fuel cs3 with
            | some (v, cs4) =>
              match skipJsonWs cs4 with
              | ',' :: cs5 => pMembers fuel (alistSet acc k v) cs5
              | c6 :: cs6 =>
                if c6 = rbraceChar then some (.obj (alistSet acc k v), cs6)
                else none
              | [] => none
            | none => none
          | _ => none
        | none => none
      else none
    | [] => none

/-- Elements of a JSON array after the opening bracket (at least one). -/
def pElems : Nat → List JsValue → List Char → Option (JsValue × List Char)
  | 0, _, _ => none
  | fuel + 1, acc, cs =>
    match pValue fuel cs with
    | some (v, cs1) =>
      match skipJsonWs cs1 with
      | ',' :: cs2 => pElems fuel (acc ++ [v]) cs2
      | ']' :: cs2 => some (.arr (acc ++ [v]), cs2)
      | _ => none
    | none => none

end

/-- Model of `JSON.parse`: `none` models a thrown `SyntaxError`. -/
def jsonParse (s : String) : Option JsValue :=
  match pValue (4 * s.length + 8) s.toList with
  | some (v, rest) => if (skipJsonWs rest).isEmpty then some v else none
  | none => none

/-! ### Fetcher configuration and cache state -/

/-- `PaginationOptions` from `BaseFetcher`. -/
structure PaginationOptions where
  page : Nat
  limit : Nat
  enabled : Bool

/-- `FetcherOptions` from `BaseFetcher` (the `dataSource` field selects the
fetch path; here each path is modelled by its own function). -/
structure FetcherOptions where
  componentId : String
  endpoint : Option String
  pagination : Option PaginationOptions

/-- The default pagination installed by the `BaseFetcher` constructor when
none is supplied: `{page 1, limit 0, enabled false}`. -/
def defaultedOptions (o : FetcherOptions) : FetcherOptions :=
  { o with pagination := some (o.pagination.getD ⟨1, 0, false⟩) }

/-- One entry of the per-instance client cache. -/
structure ClientEntry where
  data : List JsValue
  timestamp : Nat
  totalItems : JsValue
  totalPages : JsValue

/-- The two cache tables of `BaseFetcher`: the static server cache and the
per-instance client cache, both JavaScript `Map`s. -/
structure CacheState where
  serverCache : List (String × List JsValue)
  clientCache : List (String × ClientEntry)

def emptyCaches : CacheState := ⟨[], []⟩

/-- `cacheExpirationTime`: five minutes in milliseconds. -/
def cacheExpirationTime : Nat := 5 * 60 * 1000

/-- `invalidateCache`: delete every cache key containing the componentId;
the server table is touched only when executing server-side. -/
def invalidateCache (componentId : String) (isServerSide : Bool)
    (st : CacheState) : CacheState :=
  { clientCache := st.clientCache.filter fun kv => !(jsIncludes kv.1 componentId)
    serverCache :=
      if isServerSide then
        st.serverCache.filter fun kv => !(jsIncludes kv.1 componentId)
      else st.serverCache }

/-- Result shape `{data, totalItems?, totalPages?}` of the fetch methods;
absent fields are JavaScript `undefined`. -/
structure FetchResult where
  data : List JsValue
  totalItems : JsValue
  totalPages : JsValue

def plainResult (d : List JsValue) : FetchResult := ⟨d, .undefined, .undefined⟩

/-- An HTTP response as observed by the json/csv/txt paths: `ok` flag and
the text of the body (`response.json()` is `jsonParse` of that text). -/
structure HttpResp where
  ok : Bool
  body : String

/-- The cache key of `fetchJsonData`:
`json_{componentId}[_page{N}_limit{M}]`. -/
def jsonCacheKey (opts : FetcherOptions) : String :=
  let pagStr :=
    match opts.pagination with
    | some p =>
      if p.enabled then "_page" ++ toString p.page ++ "_limit" ++ toString p.limit
      else ""
    | none => ""
  "json_" ++ opts.componentId ++ pagStr

/-- The envelope/bare-array/other discrimination of `fetchJsonData`
(lines 160–179).  Throws (`error`) exactly where the JavaScript would throw
a `TypeError`: property access `responseData.data` on a `null` body. -/
def decodeJsonResponse (parseData : JsValue → List JsValue)
    (responseData : JsValue) : Except Unit (List JsValue × JsValue × JsValue) :=
  match jsGet responseData "data" with
  | .error e => .error e
  | .ok dataField =>
    if truthy dataField && isArray dataField then
      match jsGet responseData "pagination" with
      | .error e => .error e
      | .ok pag => .ok (parseData dataField, jsGetOpt pag "totalItems", jsGetOpt pag "totalPages")
    else if isArray responseData then
      .ok (parseData responseData, .undefined, .undefined)
    else
      .ok ([], .undefined, .undefined)

/-- `fetchJsonData`.  `now` is `Date.now()` at the cache check, `nowStore`
at the cache store; `resp` is the outcome of the (at most one) `fetch` call,
`none` modelling a rejected fetch.  Returns the settled promise, the cache
state after the call, and the number of network calls made. -/
def fetchJsonData (opts : FetcherOptions) (parseData : JsValue → List JsValue)
    (isServer : Bool) (st : CacheState) (now nowStore : Nat)
    (resp : Option HttpResp) :
    Except Unit FetchResult × CacheState × Nat :=
  let cacheKey := jsonCacheKey opts
  let network :=
    match resp with
    | none => (Except.error (), st, 1)
    | some r =>
      if !r.ok then (Except.error (), st, 1)
      else
        match jsonParse r.body with
        | none => (Except.error (), st, 1)
        | some responseData =>
          match decodeJsonResponse parseData responseData with
          | .error _ => (Except.error (), st, 1)
          | .ok (parsedData, totalItems, totalPages) =>
            if isServer then
              (Except.ok ⟨parsedData, totalItems, totalPages⟩,
               { st with serverCache := alistSet st.serverCache cacheKey parsedData }, 1)
            else
              (Except.ok ⟨parsedData, totalItems, totalPages⟩,
               { st with clientCache :=
                   (alistSet st.clientCache cacheKey
                     ⟨parsedData, nowStore, totalItems, totalPages⟩) }, 1)
  if isServer then
    match alistGet st.serverCache cacheKey with
    | some cached => (Except.ok (plainResult cached), st, 0)
    | none => network
  else
    match alistGet st.clientCache cacheKey with
    | some e =>
      if now - e.timestamp < cacheExpirationTime then
        (Except.ok ⟨e.data, e.totalItems, e.totalPages⟩, st, 0)
      else network
    | none => network

/-- One CSV record: headers are zipped positionally against the values;
missing values become `undefined` (assigned, as in JavaScript). -/
def csvRecord (headers values : List String) : List (String × JsValue) :=
  (List.range headers.length).foldl
    (fun obj i =>
      let h := jsTrim (headers.getD i "")
      let v : JsValue :=
        match values.get? i with
        | some s => .str (jsTrim s)
        | none => .undefined
      alistSet obj h v)
    []

/-- The CSV decode of `fetchCsvData` (lines 230–243): first row is the
header row, each later non-blank row becomes one record. -/
def parseCsvText (text : String) : JsValue :=
  let rows := jsSplit text "\n"
  let headers := jsSplit (rows.headD "") ","
  .arr (((rows.drop 1).filter fun row => !(jsTrim row).isEmpty).map fun row =>
    .obj (csvRecord headers (jsSplit row ",")))

/-- Shared skeleton of `fetchCsvData`/`fetchTxtData`: cache check, one
network call, decode, `parseData`, cache store.  `decode` is the
format-specific body decode (which never throws for csv/txt). -/
def fetchTextFormat (cacheKey : String) (decode : String → JsValue)
    (parseData : JsValue → List JsValue) (isServer : Bool) (st : CacheState)
    (now nowStore : Nat) (resp : Option HttpResp) :
    Except Unit FetchResult × CacheState × Nat :=
  let network :=
    match resp with
    | none => (Except.error (), st, 1)
    | some r =>
      if !r.ok then (Except.error (), st, 1)
      else
        let parsedData := parseData (decode r.body)
        if isServer then
          (Except.ok (plainResult parsedData),
           { st with serverCache := alistSet st.serverCache cacheKey parsedData }, 1)
        else
          (Except.ok (plainResult parsedData),
           { st with clientCache :=
               (alistSet st.clientCache cacheKey ⟨parsedData, nowStore, .undefined, .undefined⟩) }, 1)
  if isServer then
    match alistGet st.serverCache cacheKey with
    | some cached => (Except.ok (plainResult cached), st, 0)
    | none => network
  else
    match alistGet st.clientCache cacheKey with
    | some e =>
      if now - e.timestamp < cacheExpirationTime then
        (Except.ok (plainResult e.data), st, 0)
      else network
    | none => network

/-- `fetchCsvData`. -/
def fetchCsvData (opts : FetcherOptions) (parseData : JsValue → List JsValue)
    (isServer : Bool) (st : CacheState) (now nowStore : Nat)
    (resp : Option HttpResp) :
    Except Unit FetchResult × CacheState × Nat :=
  fetchTextFormat ("csv_" ++ opts.componentId) parseCsvText parseData isServer
    st now nowStore resp

/-- One TXT line (lines 298–312): try `JSON.parse`; on failure fall back to
the comma/colon key-value grammar, dropping pairs missing either side. -/
def txtParseLine (line : String) : JsValue :=
  match jsonParse line with
  | some v => v
  | none =>
    let pairs := jsSplit line ","
    .obj (pairs.foldl
      (fun obj pair =>
        let parts := (jsSplit pair ":").map jsTrim
        let key := parts.headD ""
        match parts.get? 1 with
        | some value =>
          if !key.isEmpty && !value.isEmpty then alistSet obj key (.str value)
          else obj
        | none => obj)
      [])

/-- The TXT decode of `fetchTxtData`: each non-blank line through
`txtParseLine`. -/
def parseTxtText (text : String) : JsValue :=
  .arr (((jsSplit text "\n").filter fun line => !(jsTrim line).isEmpty).map txtParseLine)

/-- `fetchTxtData`. -/
def fetchTxtData (opts : FetcherOptions) (parseData : JsValue → List JsValue)
    (isServer : Bool) (st : CacheState) (now nowStore : Nat)
    (resp : Option HttpResp) :
    Except Unit FetchResult × CacheState × Nat :=
  fetchTextFormat ("txt_" ++ opts.componentId) parseTxtText parseData isServer
    st now nowStore resp

/-! ### The api fetch path (`fetchApiData`) -/

/-- An upstream API response: status, optional `Retry-After` header, body
text. -/
structure ApiResponse where
  status : Nat
  retryAfterHeader : Option String
  body : String

/-- `response.ok`: status in the 2xx range. -/
def respOk (r : ApiResponse) : Bool :=
  200 ≤ r.status && r.status ≤ 299

/-- The wait computed on a 429 (line 386–387):
`response.headers.get("Retry-After") || "5"`, then
`Number.parseInt(retryAfter, 10) * 1000 || 2 ** retries * 1000`. -/
def retryWait429 (retryAfterHeader : Option String) (retries : Nat) : Int :=
  let retryAfter :=
    match retryAfterHeader with
    | some h => if !h.isEmpty then h else "5"
    | none => "5"
  match jsParseInt retryAfter with
  | some n => if n * 1000 ≠ 0 then n * 1000 else 2 ^ retries * 1000
  | none => 2 ^ retries * 1000

/-- Outcome of the retry loop: backoff delays in order, number of upstream
fetch attempts, and the parsed data when one attempt succeeded. -/
structure ApiLoopOut where
  delays : List Int
  attempts : Nat
  outcome : Option (List JsValue)

/-- The `while (retries < MAX_RETRIES)` loop of `fetchApiData`
(lines 365–421).  `rem` is `MAX_RETRIES - retries`; one prescribed response
is consumed per attempt (`none` models a rejected `fetch`; a missing list
entry also models a rejected fetch). -/
def apiRetryLoop (parseData : JsValue → List JsValue) :
    Nat → Nat → List (Option ApiResponse) → ApiLoopOut
  | 0, _, _ => ⟨[], 0, none⟩
  | rem + 1, retries, net =>
    let failWith (w : Int) : ApiLoopOut :=
      let rest := apiRetryLoop parseData rem (retries + 1) (net.drop 1)
      ⟨w :: rest.delays, rest.attempts + 1, rest.outcome⟩
    match net.headD none with
    | none => failWith (2 ^ retries * 1000)
    | some r =>
      if r.status = 429 then failWith (retryWait429 r.retryAfterHeader retries)
      else if !(respOk r) then failWith (2 ^ retries * 1000)
      else
        match jsonParse r.body with
        | none => failWith (2 ^ retries * 1000)
        | some v => ⟨[], 1, some (parseData v)⟩

/-- `getMockData` for a componentId containing `"User"`. -/
def mockUsers : List JsValue :=
  [ .obj [("id", .num 1 0), ("name", .str "Mock User 1"), ("email", .str "user1@example.com")],
    .obj [("id", .num 2 0), ("name", .str "Mock User 2"), ("email", .str "user2@example.com")],
    .obj [("id", .num 3 0), ("name", .str "Mock User 3"), ("email", .str "user3@example.com")] ]

/-- `getMockData` for a componentId containing `"Product"`. -/
def mockProducts : List JsValue :=
  [ .obj [("id", .num 1 0), ("name", .str "Mock Product 1"), ("price", .num 9999 (-2)),
          ("description", .str "A mock product")],
    .obj [("id", .num 2 0), ("name", .str "Mock Product 2"), ("price", .num 19999 (-2)),
          ("description", .str "Another mock product")],
    .obj [("id", .num 3 0), ("name", .str "Mock Product 3"), ("price", .num 29999 (-2)),
          ("description", .str "Yet another mock product")] ]

/-- `getMockData` (lines 449–469): substring heuristics on componentId. -/
def getMockData (componentId : String) : List JsValue :=
  if jsIncludes componentId "User" then mockUsers
  else if jsIncludes componentId "Product" then mockProducts
  else []

/-- Environment of one `fetchApiData` call: the prescribed responses of the
retry loop and the response of the (at most one) fallback fetch (`none`
models a rejected fallback fetch). -/
structure ApiEnv where
  net : List (Option ApiResponse)
  fallbackResp : Option ApiResponse

/-- What the fallback read (lines 426–442) delivers: data only when the
fallback response arrives, is `ok`, and its body decodes as JSON;
otherwise the code falls through to the mock data. -/
def apiFallbackData (parseData : JsValue → List JsValue)
    (fallbackResp : Option ApiResponse) : Option (List JsValue) :=
  match fallbackResp with
  | none => none
  | some r => if respOk r then (jsonParse r.body).map parseData else none

/-- Observable outcome of one `fetchApiData` call. -/
structure ApiOut where
  res : Except Unit FetchResult
  state : CacheState
  attempts : Nat
  delays : List Int
  fallbackUsed : Bool

/-- The cache-miss part of `fetchApiData` (lines 352–446): endpoint check,
retry loop, fallback ladder, mock data. -/
def apiNetworkResult (opts : FetcherOptions) (parseData : JsValue → List JsValue)
    (isServer : Bool) (st : CacheState) (nowStore : Nat) (env : ApiEnv) :
    ApiOut :=
  let cacheKey := "api_" ++ opts.componentId
  let url := (opts.endpoint.getD "")
  if url.isEmpty then ⟨Except.ok (plainResult []), st, 0, [], false⟩
  else
      let loop := apiRetryLoop parseData 3 0 env.net
      match loop.outcome with
      | some parsedData =>
        if isServer then
          ⟨Except.ok (plainResult parsedData),
           { st with serverCache := alistSet st.serverCache cacheKey parsedData },
           loop.attempts, loop.delays, false⟩
        else
          ⟨Except.ok (plainResult parsedData),
           { st with clientCache :=
               (alistSet st.clientCache cacheKey ⟨parsedData, nowStore, .undefined, .undefined⟩) },
           loop.attempts, loop.delays, false⟩
      | none =>
        if isServer then
          ⟨Except.ok (plainResult (getMockData opts.componentId)), st,
           loop.attempts, loop.delays, false⟩
        else
          match apiFallbackData parseData env.fallbackResp with
          | some d => ⟨Except.ok (plainResult d), st, loop.attempts, loop.delays, true⟩
          | none =>
            ⟨Except.ok (plainResult (getMockData opts.componentId)), st,
             loop.attempts, loop.delays, true⟩

/-- `fetchApiData` (lines 334–446): cache checks, then the network /
retry / fallback ladder of `apiNetworkResult`. -/
def fetchApiData (opts : FetcherOptions) (parseData : JsValue → List JsValue)
    (isServer : Bool) (st : CacheState) (now nowStore : Nat) (env : ApiEnv) :
    ApiOut :=
  let cacheKey := "api_" ++ opts.componentId
  let network := apiNetworkResult opts parseData isServer st nowStore env
  if isServer then
    match alistGet st.serverCache cacheKey with
    | some cached => ⟨Except.ok (plainResult cached), st, 0, [], false⟩
    | none => network
  else
    match alistGet st.clientCache cacheKey with
    | some e =>
      if now - e.timestamp < cacheExpirationTime then
        ⟨Except.ok (plainResult e.data), st, 0, [], false⟩
      else network
    | none => network

/-! ### The realtime bus (`RealtimeManager`) -/

/-- A `DataChangeEvent`; absent optional fields are `undefined`. -/
structure DataChangeEvent where
  componentId : String
  action : String
  data : JsValue
  id : JsValue

/-- A registered SSE client.  `sendOk` models whether its `send` callback
succeeds (a throwing `send` gets the client removed during broadcast). -/
structure SSEClient where
  id : String
  sendOk : Bool

/-- State of the `RealtimeManager` singleton.  `κ` is the type of
subscribed callbacks (opaque to the manager); `listeners` is the
`EventEmitter` table, callbacks kept in registration order. -/
structure RTState (κ : Type) where
  listeners : List (String × List κ)
  sseClients : List SSEClient
  isServerSide : Bool

/-- The bus channel for a componentId. -/
def channelName (componentId : String) : String :=
  "data-change:" ++ componentId

/-- `EventEmitter.on`: append the callback to the channel's list. -/
def emitterOn {κ : Type} (ls : List (String × List κ)) (ev : String) (cb : κ) :
    List (String × List κ) :=
  match alistGet ls ev with
  | some cbs => alistSet ls ev (cbs ++ [cb])
  | none => ls ++ [(ev, [cb])]

/-- `RealtimeManager.subscribe` (state effect). -/
def rtSubscribe {κ : Type} (st : RTState κ) (componentId : String) (cb : κ) :
    RTState κ :=
  { st with listeners := emitterOn st.listeners (channelName componentId) cb }

/-- Observable outcome of one `publish` call: `invoked` is the sequence of
callbacks run synchronously (in registration order); `sentTo` the ids of the
SSE clients the serialized event was sent to, in set-iteration order.  The
`JSON.stringify` serialization is an injective encoding whose exact bytes no
claim depends on, so the model records the recipients of the event rather
than the byte payload. -/
structure PublishOut (κ : Type) where
  invoked : List κ
  sentTo : List String
  state : RTState κ

/-- `RealtimeManager.publish` (lines 751–759) together with
`broadcastToSSEClients` (lines 777–787): emit on the local channel, then —
server-side only — send to every registered SSE client, dropping the
clients whose `send` throws. -/
def rtPublish {κ : Type} (st : RTState κ) (ev : DataChangeEvent) :
    PublishOut κ :=
  let invoked := (alistGet st.listeners (channelName ev.componentId)).getD []
  if st.isServerSide then
    { invoked := invoked
      sentTo := st.sseClients.map SSEClient.id
      state := { st with sseClients := st.sseClients.filter SSEClient.sendOk } }
  else
    { invoked := invoked, sentTo := [], state := st }

/-- A concrete `parseData` implementation (one possible subclass), used to
instantiate witnesses: the elements of an array payload, else the payload
itself as a singleton. -/
def arrayElems : JsValue → List JsValue
  | .arr xs => xs
  | v => [v]

def csvCacheKey (opts : FetcherOptions) : String := "csv_" ++ opts.componentId

def txtCacheKey (opts : FetcherOptions) : String := "txt_" ++ opts.componentId

def apiCacheKey (opts : FetcherOptions) : String := "api_" ++ opts.componentId

/-- The fetch reaches the network: server-side the key is absent from the
server table; client-side any entry under the key has expired. -/
def missAt (isSrv : Bool) (st : CacheState) (key : String) (now : Nat) : Prop :=
  if isSrv then alistGet st.serverCache key = none
  else ∀ e, alistGet st.clientCache key = some e →
    ¬ (now - e.timestamp < cacheExpirationTime)

/-- A failing single-fetch outcome: rejected fetch or non-2xx response. -/
def failingResp (resp : Option HttpResp) : Prop :=
  resp = none ∨ ∃ r, resp = some r ∧ r.ok = false

/-- A failing json fetch: rejected fetch, non-2xx response, undecodable
body, or a decoded body on which the envelope discrimination throws. -/
def failingJsonResp (parseData : JsValue → List JsValue)
    (resp : Option HttpResp) : Prop :=
  resp = none ∨ ∃ r, resp = some r ∧
    (r.ok = false ∨ jsonParse r.body = none ∨
     ∃ v, jsonParse r.body = some v ∧ decodeJsonResponse parseData v = .error ())

/-- The 429 wait as the amended claim states it: the `Retry-After` header
converted from seconds to milliseconds when it is present and parses to a
nonzero integer; a fixed 5 seconds when the header is absent or empty
(the code defaults the header string to `"5"`); exponential backoff
`2 ^ attempt` seconds when the header value does not parse or parses to
zero. -/
def specRetry429Delay (h : Option String) (k : Nat) : Int :=
  match h with
  | some s =>
    if s.isEmpty then 5000
    else
      match jsParseInt s with
      | some n => if n = 0 then 2 ^ k * 1000 else n * 1000
      | none => 2 ^ k * 1000
  | none => 5000

/-- A decoded json body that is neither the envelope form (object whose
`data` member is a truthy array) nor a bare array nor `null`/`undefined`:
the shapes `fetchJsonData` answers with an empty parsed sequence. -/
def nonEnvelopeShape : JsValue → Bool
  | .bool _ => true
  | .num _ _ => true
  | .str _ => true
  | .obj fields =>
    !(truthy ((alistGet fields "data").getD .undefined) &&
      isArray ((alistGet fields "data").getD .undefined))
  | _ => false

/-! ### Association-list lemmas -/

theorem alistGet_alistSet {α : Type} (l : List (String × α)) (k2 k : String) (v2 : α) :
    alistGet (alistSet l k2 v2) k = if k = k2 then some v2 else alistGet l k := by
  induction l with
  | nil =>
    by_cases h : k2 = k
    · subst h; simp [alistSet, alistGet]
    · have h2 : ¬ k = k2 := fun hh => h hh.symm
      simp [alistSet, alistGet, h, h2]
  | cons hd tl ih =>
    obtain ⟨k1, v1⟩ := hd
    by_cases hk12 : k1 = k2
    · subst hk12
      by_cases hk : k1 = k
      · subst hk; simp [alistSet, alistGet]
      · have hk2 : ¬ k = k1 := fun hh => hk hh.symm
        simp [alistSet, alistGet, hk, hk2]
    · by_cases hk : k1 = k
      · subst hk
        have hne : ¬ k1 = k2 := hk12
        simp [alistSet, alistGet, hk12, hne]
      · simp [alistSet, alistGet, hk12, hk, ih]

theorem alistGet_filter_keys {α : Type} (p : String → Bool)
    (l : List (String × α)) (k : String) :
    alistGet (l.filter fun kv => p kv.1) k =
      if p k then alistGet l k else none := by
  induction l with
  | nil => by_cases h : p k <;> simp [alistGet, h]
  | cons hd tl ih =>
    obtain ⟨k1, v1⟩ := hd
    by_cases h1 : k1 = k
    · subst h1
      by_cases hp : p k1 <;> simp [List.filter_cons, alistGet, hp, ih]
    · by_cases hp : p k1 <;> simp [List.filter_cons, alistGet, h1, hp, ih]

/-! ### Cache behaviour of the format-specific fetch paths -/

/-- Any fetch path either leaves the server table untouched or adds one
binding for its own (previously absent) cache key. -/
theorem serverTable_preserved {m m2 : List (String × List JsValue)} {cacheKey : String}
    (hshape : m2 = m ∨ (alistGet m cacheKey = none ∧ ∃ p, m2 = alistSet m cacheKey p))
    {k : String} {v : List JsValue} (h : alistGet m k = some v) :
    alistGet m2 k = some v := by
  rcases hshape with rfl | ⟨hnone, p, rfl⟩
  · exact h
  · rw [alistGet_alistSet]
    by_cases hk : k = cacheKey
    · subst hk; simp [h] at hnone
    · simp [hk, h]

theorem fetchTextFormat_server_hit (cacheKey : String) (decode : String → JsValue)
    (parseData : JsValue → List JsValue) (st : CacheState) (now nowStore : Nat)
    (resp : Option HttpResp) (d : List JsValue)
    (h : alistGet st.serverCache cacheKey = some d) :
    fetchTextFormat cacheKey decode parseData true st now nowStore resp =
      (Except.ok (plainResult d), st, 0) := by
  simp [fetchTextFormat, h]

theorem fetchTextFormat_client_hit (cacheKey : String) (decode : String → JsValue)
    (parseData : JsValue → List JsValue) (st : CacheState) (now nowStore : Nat)
    (resp : Option HttpResp) (e : ClientEntry)
    (h : alistGet st.clientCache cacheKey = some e)
    (hfresh : now - e.timestamp < cacheExpirationTime) :
    fetchTextFormat cacheKey decode parseData false st now nowStore resp =
      (Except.ok (plainResult e.data), st, 0) := by
  simp [fetchTextFormat, h, hfresh]

theorem fetchTextFormat_serverCache_shape (cacheKey : String) (decode : String → JsValue)
    (parseData : JsValue → List JsValue) (isSrv : Bool) (st : CacheState)
    (now nowStore : Nat) (resp : Option HttpResp) :
    (fetchTextFormat cacheKey decode parseData isSrv st now nowStore resp).2.1.serverCache =
        st.serverCache ∨
      (alistGet st.serverCache cacheKey = none ∧
       ∃ p, (fetchTextFormat cacheKey decode parseData isSrv st now nowStore resp).2.1.serverCache =
         alistSet st.serverCache cacheKey p) := by
  cases isSrv with
  | true =>
    cases hs : alistGet st.serverCache cacheKey with
    | some d => simp [fetchTextFormat, hs]
    | none =>
      cases resp with
      | none => simp [fetchTextFormat, hs]
      | some r =>
        by_cases hok : r.ok
        · exact Or.inr ⟨rfl, ⟨parseData (decode r.body), by simp [fetchTextFormat, hs, hok]⟩⟩
        · simp [fetchTextFormat, hs, hok]

  | false =>
    cases hc : alistGet st.clientCache cacheKey with
    | some e =>
      by_cases hfresh : now - e.timestamp < cacheExpirationTime
      · simp [fetchTextFormat, hc, hfresh]
      · cases resp with
        | none => simp [fetchTextFormat, hc, hfresh]
        | some r => by_cases hok : r.ok <;> simp [fetchTextFormat, hc, hfresh, hok]
    | none =>
      cases resp with
      | none => simp [fetchTextFormat, hc]
      | some r => by_cases hok : r.ok <;> simp [fetchTextFormat, hc, hok]

theorem fetchTextFormat_failure (cacheKey : String) (decode : String → JsValue)
    (parseData : JsValue → List JsValue) (isSrv : Bool) (st : CacheState)
    (now nowStore : Nat) (resp : Option HttpResp)
    (hmiss : missAt isSrv st cacheKey now) (hfail : failingResp resp) :
    fetchTextFormat cacheKey decode parseData isSrv st now nowStore resp =
      (Except.error (), st, 1) := by
  have hnet : ∀ m : List (String × ClientEntry),
      (match resp with
        | none => ((Except.error () : Except Unit FetchResult), st, 1)
        | some r =>
          if !r.ok then ((Except.error () : Except Unit FetchResult), st, 1)
          else
            let parsedData := parseData (decode r.body)
            if isSrv then
              (Except.ok (plainResult parsedData),
               { st with serverCache := alistSet st.serverCache cacheKey parsedData }, 1)
            else
              (Except.ok (plainResult parsedData),
               { st with clientCache :=
                   (alistSet m cacheKey ⟨parsedData, nowStore, .undefined, .undefined⟩) }, 1)) =
        ((Except.error () : Except Unit FetchResult), st, 1) := by
    intro m
    rcases hfail with rfl | ⟨r, rfl, hok⟩
    · rfl
    · simp [hok]
  cases isSrv with
  | true =>
    have hs : alistGet st.serverCache cacheKey = none := hmiss
    rcases hfail with rfl | ⟨r, rfl, hok⟩
    · simp [fetchTextFormat, hs]
    · simp [fetchTextFormat, hs, hok]
  | false =>
    cases hc : alistGet st.clientCache cacheKey with
    | some e =>
      have hexp : ¬ (now - e.timestamp < cacheExpirationTime) := hmiss e hc
      rcases hfail with rfl | ⟨r, rfl, hok⟩
      · simp [fetchTextFormat, hc, hexp]
      · simp [fetchTextFormat, hc, hexp, hok]
    | none =>
      rcases hfail with rfl | ⟨r, rfl, hok⟩
      · simp [fetchTextFormat, hc]
      · simp [fetchTextFormat, hc, hok]

theorem fetchTextFormat_client_expired (cacheKey : String) (decode : String → JsValue)
    (parseData : JsValue → List JsValue) (st : CacheState) (now nowStore : Nat)
    (resp : Option HttpResp) (e : ClientEntry)
    (h : alistGet st.clientCache cacheKey = some e)
    (hexp : ¬ (now - e.timestamp < cacheExpirationTime)) :
    (fetchTextFormat cacheKey decode parseData false st now nowStore resp).2.2 = 1 ∧
    (∀ r, resp = some r → r.ok = true →
      fetchTextFormat cacheKey decode parseData false st now nowStore resp =
        (Except.ok (plainResult (parseData (decode r.body))),
         { st with clientCache :=
             (alistSet st.clientCache cacheKey
               ⟨parseData (decode r.body), nowStore, .undefined, .undefined⟩) }, 1)) := by
  constructor
  · cases resp with
    | none => simp [fetchTextFormat, h, hexp]
    | some r => by_cases hok : r.ok <;> simp [fetchTextFormat, h, hexp, hok]
  · rintro r rfl hok
    simp [fetchTextFormat, h, hexp, hok]

theorem fetchTextFormat_client_success (cacheKey : String) (decode : String → JsValue)
    (parseData : JsValue → List JsValue) (st : CacheState) (now nowStore : Nat)
    (r : HttpResp)
    (hmiss : missAt false st cacheKey now) (hok : r.ok = true) :
    fetchTextFormat cacheKey decode parseData false st now nowStore (some r) =
      (Except.ok (plainResult (parseData (decode r.body))),
       { st with clientCache :=
           (alistSet st.clientCache cacheKey
             ⟨parseData (decode r.body), nowStore, .undefined, .undefined⟩) }, 1) := by
  cases hc : alistGet st.clientCache cacheKey with
  | some e =>
    have hexp : ¬ (now - e.timestamp < cacheExpirationTime) := hmiss e hc
    simp [fetchTextFormat, hc, hexp, hok]
  | none => simp [fetchTextFormat, hc, hok]

theorem fetchTextFormat_server_success (cacheKey : String) (decode : String → JsValue)
    (parseData : JsValue → List JsValue) (st : CacheState) (now nowStore : Nat)
    (r : HttpResp)
    (hmiss : missAt true st cacheKey now) (hok : r.ok = true) :
    fetchTextFormat cacheKey decode parseData true st now nowStore (some r) =
      (Except.ok (plainResult (parseData (decode r.body))),
       { st with serverCache :=
           alistSet st.serverCache cacheKey (parseData (decode r.body)) }, 1) := by
  have hs : alistGet st.serverCache cacheKey = none := hmiss
  simp [fetchTextFormat, hs, hok]

theorem fetchJson_server_hit (opts : FetcherOptions) (parseData : JsValue → List JsValue)
    (st : CacheState) (now nowStore : Nat) (resp : Option HttpResp) (d : List JsValue)
    (h : alistGet st.serverCache (jsonCacheKey opts) = some d) :
    fetchJsonData opts parseData true st now nowStore resp =
      (Except.ok (plainResult d), st, 0) := by
  simp [fetchJsonData, h]

theorem fetchJson_client_hit (opts : FetcherOptions) (parseData : JsValue → List JsValue)
    (st : CacheState) (now nowStore : Nat) (resp : Option HttpResp) (e : ClientEntry)
    (h : alistGet st.clientCache (jsonCacheKey opts) = some e)
    (hfresh : now - e.timestamp < cacheExpirationTime) :
    fetchJsonData opts parseData false st now nowStore resp =
      (Except.ok ⟨e.data, e.totalItems, e.totalPages⟩, st, 0) := by
  simp [fetchJsonData, h, hfresh]

theorem fetchJson_failure (opts : FetcherOptions) (parseData : JsValue → List JsValue)
    (isSrv : Bool) (st : CacheState) (now nowStore : Nat) (resp : Option HttpResp)
    (hmiss : missAt isSrv st (jsonCacheKey opts) now)
    (hfail : failingJsonResp parseData resp) :
    fetchJsonData opts parseData isSrv st now nowStore resp =
      (Except.error (), st, 1) := by
  have hnet :
      (match resp with
        | none => ((Except.error () : Except Unit FetchResult), st, 1)
        | some r =>
          if !r.ok then ((Except.error () : Except Unit FetchResult), st, 1)
          else
            match jsonParse r.body with
            | none => ((Except.error () : Except Unit FetchResult), st, 1)
            | some responseData =>
              match decodeJsonResponse parseData responseData with
              | .error _ => ((Except.error () : Except Unit FetchResult), st, 1)
              | .ok (parsedData, totalItems, totalPages) =>
                if isSrv then
                  (Except.ok ⟨parsedData, totalItems, totalPages⟩,
                   { st with serverCache :=
                       alistSet st.serverCache (jsonCacheKey opts) parsedData }, 1)
                else
                  (Except.ok ⟨parsedData, totalItems, totalPages⟩,
                   { st with clientCache :=
                       (alistSet st.clientCache (jsonCacheKey opts)
                         ⟨parsedData, nowStore, totalItems, totalPages⟩) }, 1)) =
        ((Except.error () : Except Unit FetchResult), st, 1) := by
    rcases hfail with rfl | ⟨r, rfl, hr⟩
    · rfl
    · rcases hr with hok | hparse | ⟨v, hparse, hdec⟩
      · simp [hok]
      · by_cases hok : r.ok <;> simp [hok, hparse]
      · by_cases hok : r.ok <;> simp [hok, hparse, hdec]
  cases isSrv with
  | true =>
    have hs : alistGet st.serverCache (jsonCacheKey opts) = none := hmiss
    simp only [fetchJsonData, hs]
    exact hnet
  | false =>
    cases hc : alistGet st.clientCache (jsonCacheKey opts) with
    | some e =>
      have hexp : ¬ (now - e.timestamp < cacheExpirationTime) := hmiss e hc
      simp only [fetchJsonData, hc, if_neg hexp]
      exact hnet
    | none =>
      simp only [fetchJsonData, hc]
      exact hnet

theorem fetchJson_server_success (opts : FetcherOptions)
    (parseData : JsValue → List JsValue) (st : CacheState) (now nowStore : Nat)
    (r : HttpResp) (v : JsValue) (pd : List JsValue) (ti tp : JsValue)
    (hmiss : missAt true st (jsonCacheKey opts) now) (hok : r.ok = true)
    (hparse : jsonParse r.body = some v)
    (hdec : decodeJsonResponse parseData v = .ok (pd, ti, tp)) :
    fetchJsonData opts parseData true st now nowStore (some r) =
      (Except.ok ⟨pd, ti, tp⟩,
       { st with serverCache := alistSet st.serverCache (jsonCacheKey opts) pd }, 1) := by
  have hs : alistGet st.serverCache (jsonCacheKey opts) = none := hmiss
  simp [fetchJsonData, hs, hok, hparse, hdec]

theorem fetchJson_client_success (opts : FetcherOptions)
    (parseData : JsValue → List JsValue) (st : CacheState) (now nowStore : Nat)
    (r : HttpResp) (v : JsValue) (pd : List JsValue) (ti tp : JsValue)
    (hmiss : missAt false st (jsonCacheKey opts) now) (hok : r.ok = true)
    (hparse : jsonParse r.body = some v)
    (hdec : decodeJsonResponse parseData v = .ok (pd, ti, tp)) :
    fetchJsonData opts parseData false st now nowStore (some r) =
      (Except.ok ⟨pd, ti, tp⟩,
       { st with clientCache :=
           (alistSet st.clientCache (jsonCacheKey opts) ⟨pd, nowStore, ti, tp⟩) }, 1) := by
  cases hc : alistGet st.clientCache (jsonCacheKey opts) with
  | some e =>
    have hexp : ¬ (now - e.timestamp < cacheExpirationTime) := hmiss e hc
    simp [fetchJsonData, hc, if_neg hexp, hok, hparse, hdec]
  | none => simp [fetchJsonData, hc, hok, hparse, hdec]

theorem fetchJson_serverCache_shape (opts : FetcherOptions)
    (parseData : JsValue → List JsValue) (isSrv : Bool) (st : CacheState)
    (now nowStore : Nat) (resp : Option HttpResp) :
    (fetchJsonData opts parseData isSrv st now nowStore resp).2.1.serverCache =
        st.serverCache ∨
      (alistGet st.serverCache (jsonCacheKey opts) = none ∧
       ∃ p, (fetchJsonData opts parseData isSrv st now nowStore resp).2.1.serverCache =
         alistSet st.serverCache (jsonCacheKey opts) p) := by
  have hnet : ∀ hs : alistGet st.serverCache (jsonCacheKey opts) = none,
      ∀ hc : (isSrv = false → True),
      (fetchJsonData opts parseData isSrv st now nowStore resp).2.1.serverCache =
          st.serverCache ∨
        (alistGet st.serverCache (jsonCacheKey opts) = none ∧
         ∃ p, (fetchJsonData opts parseData isSrv st now nowStore resp).2.1.serverCache =
           alistSet st.serverCache (jsonCacheKey opts) p) := by
    intro hs _
    cases resp with
    | none =>
      cases isSrv with
      | true => simp [fetchJsonData, hs]
      | false =>
        cases hcc : alistGet st.clientCache (jsonCacheKey opts) with
        | some e =>
          by_cases hfresh : now - e.timestamp < cacheExpirationTime <;>
            simp [fetchJsonData, hcc, hfresh]
        | none => simp [fetchJsonData, hcc]
    | some r =>
      by_cases hok : r.ok
      · cases hparse : jsonParse r.body with
        | none =>
          cases isSrv with
          | true => simp [fetchJsonData, hs, hok, hparse]
          | false =>
            cases hcc : alistGet st.clientCache (jsonCacheKey opts) with
            | some e =>
              by_cases hfresh : now - e.timestamp < cacheExpirationTime <;>
                simp [fetchJsonData, hcc, hfresh, hok, hparse]
            | none => simp [fetchJsonData, hcc, hok, hparse]
        | some v =>
          cases hdec : decodeJsonResponse parseData v with
          | error u =>
            cases isSrv with
            | true => simp [fetchJsonData, hs, hok, hparse, hdec]
            | false =>
              cases hcc : alistGet st.clientCache (jsonCacheKey opts) with
              | some e =>
                by_cases hfresh : now - e.timestamp < cacheExpirationTime <;>
                  simp [fetchJsonData, hcc, hfresh, hok, hparse, hdec]
              | none => simp [fetchJsonData, hcc, hok, hparse, hdec]
          | ok t =>
            obtain ⟨pd, ti, tp⟩ := t
            cases isSrv with
            | true =>
              refine Or.inr ⟨hs, ⟨pd, ?_⟩⟩
              simp [fetchJsonData, hs, hok, hparse, hdec]
            | false =>
              cases hcc : alistGet st.clientCache (jsonCacheKey opts) with
              | some e =>
                by_cases hfresh : now - e.timestamp < cacheExpirationTime <;>
                  simp [fetchJsonData, hcc, hfresh, hok, hparse, hdec]
              | none => simp [fetchJsonData, hcc, hok, hparse, hdec]
      · cases isSrv with
        | true => simp [fetchJsonData, hs, hok]
        | false =>
          cases hcc : alistGet st.clientCache (jsonCacheKey opts) with
          | some e =>
            by_cases hfresh : now - e.timestamp < cacheExpirationTime <;>
              simp [fetchJsonData, hcc, hfresh, hok]
          | none => simp [fetchJsonData, hcc, hok]
  cases isSrv with
  | true =>
    cases hs : alistGet st.serverCache (jsonCacheKey opts) with
    | some d => simp [fetchJsonData, hs]
    | none => exact hs ▸ hnet hs (by intro h; trivial)
  | false =>
    cases hs : alistGet st.serverCache (jsonCacheKey opts) with
    | some d =>
      cases hcc : alistGet st.clientCache (jsonCacheKey opts) with
      | some e =>
        by_cases hfresh : now - e.timestamp < cacheExpirationTime
        · simp [fetchJsonData, hcc, hfresh]
        · cases resp with
          | none => simp [fetchJsonData, hcc, hfresh]
          | some r =>
            by_cases hok : r.ok
            · cases hparse : jsonParse r.body with
              | none => simp [fetchJsonData, hcc, hfresh, hok, hparse]
              | some v =>
                cases hdec : decodeJsonResponse parseData v with
                | error u => simp [fetchJsonData, hcc, hfresh, hok, hparse, hdec]
                | ok t =>
                  obtain ⟨pd, ti, tp⟩ := t
                  simp [fetchJsonData, hcc, hfresh, hok, hparse, hdec]
            · simp [fetchJsonData, hcc, hfresh, hok]
      | none =>
        cases resp with
        | none => simp [fetchJsonData, hcc]
        | some r =>
          by_cases hok : r.ok
          · cases hparse : jsonParse r.body with
            | none => simp [fetchJsonData, hcc, hok, hparse]
            | some v =>
              cases hdec : decodeJsonResponse parseData v with
              | error u => simp [fetchJsonData, hcc, hok, hparse, hdec]
              | ok t =>
                obtain ⟨pd, ti, tp⟩ := t
                simp [fetchJsonData, hcc, hok, hparse, hdec]
          · simp [fetchJsonData, hcc, hok]
    | none => exact hs ▸ hnet hs (by intro h; trivial)

theorem fetchApi_server_hit (opts : FetcherOptions) (parseData : JsValue → List JsValue)
    (st : CacheState) (now nowStore : Nat) (env : ApiEnv) (d : List JsValue)
    (h : alistGet st.serverCache (apiCacheKey opts) = some d) :
    fetchApiData opts parseData true st now nowStore env =
      ⟨Except.ok (plainResult d), st, 0, [], false⟩ := by
  have h2 : alistGet st.serverCache ("api_" ++ opts.componentId) = some d := h
  simp [fetchApiData, h2]

theorem fetchApi_client_hit (opts : FetcherOptions) (parseData : JsValue → List JsValue)
    (st : CacheState) (now nowStore : Nat) (env : ApiEnv) (e : ClientEntry)
    (h : alistGet st.clientCache (apiCacheKey opts) = some e)
    (hfresh : now - e.timestamp < cacheExpirationTime) :
    fetchApiData opts parseData false st now nowStore env =
      ⟨Except.ok (plainResult e.data), st, 0, [], false⟩ := by
  have h2 : alistGet st.clientCache ("api_" ++ opts.componentId) = some e := h
  simp [fetchApiData, h2, hfresh]

theorem fetchApi_miss (opts : FetcherOptions) (parseData : JsValue → List JsValue)
    (isSrv : Bool) (st : CacheState) (now nowStore : Nat) (env : ApiEnv)
    (hmiss : missAt isSrv st (apiCacheKey opts) now) :
    fetchApiData opts parseData isSrv st now nowStore env =
      apiNetworkResult opts parseData isSrv st nowStore env := by
  cases isSrv with
  | true =>
    have hs : alistGet st.serverCache ("api_" ++ opts.componentId) = none := hmiss
    simp [fetchApiData, hs]
  | false =>
    cases hc : alistGet st.clientCache ("api_" ++ opts.componentId) with
    | some e =>
      have hexp : ¬ (now - e.timestamp < cacheExpirationTime) :=
        hmiss e hc
      simp [fetchApiData, hc, hexp]
    | none => simp [fetchApiData, hc]

/-- The retry loop makes at most `rem` further attempts. -/
theorem apiRetryLoop_attempts_le (parseData : JsValue → List JsValue) :
    ∀ (rem retries : Nat) (net : List (Option ApiResponse)),
      (apiRetryLoop parseData rem retries net).attempts ≤ rem := by
  intro rem
  induction rem with
  | zero => intro retries net; simp [apiRetryLoop]
  | succ n ih =>
    intro retries net
    rw [apiRetryLoop]
    cases hh : net.headD none with
    | none => simpa using Nat.succ_le_succ (ih (retries + 1) (net.drop 1))
    | some r =>
      by_cases h429 : r.status = 429
      · simp only [h429]
        simpa using Nat.succ_le_succ (ih (retries + 1) (net.drop 1))
      · by_cases hok : respOk r
        · cases hparse : jsonParse r.body with
          | none =>
            simp only [h429, hok, hparse]
            simpa [h429, hok, hparse] using Nat.succ_le_succ (ih (retries + 1) (net.drop 1))
          | some v => simp [h429, hok, hparse, apiRetryLoop]
        · simp only [h429, hok]
          simpa [h429, hok] using Nat.succ_le_succ (ih (retries + 1) (net.drop 1))

theorem retryWait429_eq_spec (h : Option String) (k : Nat) :
    retryWait429 h k = specRetry429Delay h k := by
  have h5 : jsParseInt "5" = some 5 := by rfl
  cases h with
  | none =>
    simp [retryWait429, specRetry429Delay, h5]
  | some s =>
    by_cases hs : s.isEmpty
    · simp [retryWait429, specRetry429Delay, hs, h5]
    · simp only [retryWait429, specRetry429Delay, hs, Bool.not_false, if_true, if_false]
      cases hp : jsParseInt s with
      | none => simp [hp]
      | some n =>
        by_cases hn : n = 0
        · simp [hp, hn]
        · have : n * 1000 ≠ 0 := by
            intro hc
            rcases mul_eq_zero.mp hc with h0 | h0
            · exact hn h0
            · norm_num at h0
          simp [hp, hn, this]

theorem apiRetryLoop_429_step (parseData : JsValue → List JsValue)
    (rem retries : Nat) (h : Option String) (b : String)
    (rest : List (Option ApiResponse)) :
    apiRetryLoop parseData (rem + 1) retries (some ⟨429, h, b⟩ :: rest) =
      ⟨retryWait429 h retries :: (apiRetryLoop parseData rem (retries + 1) rest).delays,
       (apiRetryLoop parseData rem (retries + 1) rest).attempts + 1,
       (apiRetryLoop parseData rem (retries + 1) rest).outcome⟩ := by
  rw [apiRetryLoop]
  simp

theorem apiRetryLoop_reject_step (parseData : JsValue → List JsValue)
    (rem retries : Nat) (rest : List (Option ApiResponse)) :
    apiRetryLoop parseData (rem + 1) retries (none :: rest) =
      ⟨(2 ^ retries * 1000 : Int) :: (apiRetryLoop parseData rem (retries + 1) rest).delays,
       (apiRetryLoop parseData rem (retries + 1) rest).attempts + 1,
       (apiRetryLoop parseData rem (retries + 1) rest).outcome⟩ := by
  rw [apiRetryLoop]
  simp

theorem apiRetryLoop_httpFail_step (parseData : JsValue → List JsValue)
    (rem retries : Nat) (r : ApiResponse) (rest : List (Option ApiResponse))
    (h429 : ¬ r.status = 429) (hok : respOk r = false) :
    apiRetryLoop parseData (rem + 1) retries (some r :: rest) =
      ⟨(2 ^ retries * 1000 : Int) :: (apiRetryLoop parseData rem (retries + 1) rest).delays,
       (apiRetryLoop parseData rem (retries + 1) rest).attempts + 1,
       (apiRetryLoop parseData rem (retries + 1) rest).outcome⟩ := by
  rw [apiRetryLoop]
  simp [h429, hok]

theorem apiRetryLoop_badBody_step (parseData : JsValue → List JsValue)
    (rem retries : Nat) (r : ApiResponse) (rest : List (Option ApiResponse))
    (h429 : ¬ r.status = 429) (hok : respOk r = true)
    (hparse : jsonParse r.body = none) :
    apiRetryLoop parseData (rem + 1) retries (some r :: rest) =
      ⟨(2 ^ retries * 1000 : Int) :: (apiRetryLoop parseData rem (retries + 1) rest).delays,
       (apiRetryLoop parseData rem (retries + 1) rest).attempts + 1,
       (apiRetryLoop parseData rem (retries + 1) rest).outcome⟩ := by
  rw [apiRetryLoop]
  simp [h429, hok, hparse]

theorem apiRetryLoop_success_step (parseData : JsValue → List JsValue)
    (rem retries : Nat) (r : ApiResponse) (rest : List (Option ApiResponse))
    (h429 : ¬ r.status = 429) (hok : respOk r = true) (v : JsValue)
    (hparse : jsonParse r.body = some v) :
    apiRetryLoop parseData (rem + 1) retries (some r :: rest) =
      ⟨[], 1, some (parseData v)⟩ := by
  rw [apiRetryLoop]
  simp [h429, hok, hparse]

theorem apiNetwork_noEndpoint (opts : FetcherOptions) (parseData : JsValue → List JsValue)
    (isSrv : Bool) (st : CacheState) (nowStore : Nat) (env : ApiEnv)
    (hep : (opts.endpoint.getD "").isEmpty = true) :
    apiNetworkResult opts parseData isSrv st nowStore env =
      ⟨Except.ok (plainResult []), st, 0, [], false⟩ := by
  simp [apiNetworkResult, hep]

theorem apiNetwork_success (opts : FetcherOptions) (parseData : JsValue → List JsValue)
    (isSrv : Bool) (st : CacheState) (nowStore : Nat) (env : ApiEnv)
    (pd : List JsValue)
    (hep : (opts.endpoint.getD "").isEmpty = false)
    (hloop : (apiRetryLoop parseData 3 0 env.net).outcome = some pd) :
    apiNetworkResult opts parseData isSrv st nowStore env =
      (if isSrv then
        ⟨Except.ok (plainResult pd),
         { st with serverCache := alistSet st.serverCache ("api_" ++ opts.componentId) pd },
         (apiRetryLoop parseData 3 0 env.net).attempts,
         (apiRetryLoop parseData 3 0 env.net).delays, false⟩
      else
        ⟨Except.ok (plainResult pd),
         { st with clientCache :=
             (alistSet st.clientCache ("api_" ++ opts.componentId)
               ⟨pd, nowStore, .undefined, .undefined⟩) },
         (apiRetryLoop parseData 3 0 env.net).attempts,
         (apiRetryLoop parseData 3 0 env.net).delays, false⟩) := by
  cases isSrv <;> simp [apiNetworkResult, hep, hloop]

theorem apiNetwork_exhausted_server (opts : FetcherOptions)
    (parseData : JsValue → List JsValue) (st : CacheState) (nowStore : Nat)
    (env : ApiEnv)
    (hep : (opts.endpoint.getD "").isEmpty = false)
    (hloop : (apiRetryLoop parseData 3 0 env.net).outcome = none) :
    apiNetworkResult opts parseData true st nowStore env =
      ⟨Except.ok (plainResult (getMockData opts.componentId)), st,
       (apiRetryLoop parseData 3 0 env.net).attempts,
       (apiRetryLoop parseData 3 0 env.net).delays, false⟩ := by
  simp [apiNetworkResult, hep, hloop]

theorem apiNetwork_exhausted_client (opts : FetcherOptions)
    (parseData : JsValue → List JsValue) (st : CacheState) (nowStore : Nat)
    (env : ApiEnv)
    (hep : (opts.endpoint.getD "").isEmpty = false)
    (hloop : (apiRetryLoop parseData 3 0 env.net).outcome = none) :
    apiNetworkResult opts parseData false st nowStore env =
      (match apiFallbackData parseData env.fallbackResp with
       | some d =>
         ⟨Except.ok (plainResult d), st,
          (apiRetryLoop parseData 3 0 env.net).attempts,
          (apiRetryLoop parseData 3 0 env.net).delays, true⟩
       | none =>
         ⟨Except.ok (plainResult (getMockData opts.componentId)), st,
          (apiRetryLoop parseData 3 0 env.net).attempts,
          (apiRetryLoop parseData 3 0 env.net).delays, true⟩) := by
  cases hf : apiFallbackData parseData env.fallbackResp <;>
    simp [apiNetworkResult, hep, hloop, hf]

/-- `fetchApiData` always settles with `ok`: every failure is converted to
fallback or mock data. -/
theorem fetchApi_res_ok (opts : FetcherOptions) (parseData : JsValue → List JsValue)
    (isSrv : Bool) (st : CacheState) (now nowStore : Nat) (env : ApiEnv) :
    ∃ v, (fetchApiData opts parseData isSrv st now nowStore env).res = Except.ok v := by
  have hnet : ∃ v, (apiNetworkResult opts parseData isSrv st nowStore env).res =
      Except.ok v := by
    by_cases hep : (opts.endpoint.getD "").isEmpty
    · exact ⟨_, by rw [apiNetwork_noEndpoint _ _ _ _ _ _ hep]⟩
    · cases hloop : (apiRetryLoop parseData 3 0 env.net).outcome with
      | some pd =>
        refine ⟨plainResult pd, ?_⟩
        rw [apiNetwork_success _ _ _ _ _ _ pd (by simp [hep]) hloop]
        cases isSrv <;> simp
      | none =>
        cases isSrv with
        | true =>
          exact ⟨_, by rw [apiNetwork_exhausted_server _ _ _ _ _ (by simp [hep]) hloop]⟩
        | false =>
          rw [apiNetwork_exhausted_client _ _ _ _ _ (by simp [hep]) hloop]
          cases hf : apiFallbackData parseData env.fallbackResp <;> simp [hf]
  cases isSrv with
  | true =>
    cases hs : alistGet st.serverCache ("api_" ++ opts.componentId) with
    | some d => exact ⟨plainResult d, by simp [fetchApiData, hs]⟩
    | none =>
      obtain ⟨v, hv⟩ := hnet
      exact ⟨v, by simp [fetchApiData, hs]; exact hv⟩
  | false =>
    cases hc : alistGet st.clientCache ("api_" ++ opts.componentId) with
    | some e =>
      by_cases hfresh : now - e.timestamp < cacheExpirationTime
      · exact ⟨plainResult e.data, by simp [fetchApiData, hc, hfresh]⟩
      · obtain ⟨v, hv⟩ := hnet
        exact ⟨v, by simp [fetchApiData, hc, hfresh]; exact hv⟩
    | none =>
      obtain ⟨v, hv⟩ := hnet
      exact ⟨v, by simp [fetchApiData, hc]; exact hv⟩

theorem apiNetwork_client_serverCache (opts : FetcherOptions)
    (parseData : JsValue → List JsValue) (st : CacheState) (nowStore : Nat)
    (env : ApiEnv) :
    (apiNetworkResult opts parseData false st nowStore env).state.serverCache =
      st.serverCache := by
  by_cases hep : (opts.endpoint.getD "").isEmpty
  · rw [apiNetwork_noEndpoint _ _ _ _ _ _ hep]
  · cases hloop : (apiRetryLoop parseData 3 0 env.net).outcome with
    | some pd =>
      rw [apiNetwork_success _ _ _ _ _ _ pd (by simp [hep]) hloop]
      simp
    | none =>
      rw [apiNetwork_exhausted_client _ _ _ _ _ (by simp [hep]) hloop]
      cases hf : apiFallbackData parseData env.fallbackResp <;> simp [hf]

theorem fetchApi_serverCache_shape (opts : FetcherOptions)
    (parseData : JsValue → List JsValue) (isSrv : Bool) (st : CacheState)
    (now nowStore : Nat) (env : ApiEnv) :
    (fetchApiData opts parseData isSrv st now nowStore env).state.serverCache =
        st.serverCache ∨
      (alistGet st.serverCache (apiCacheKey opts) = none ∧
       ∃ p, (fetchApiData opts parseData isSrv st now nowStore env).state.serverCache =
         alistSet st.serverCache (apiCacheKey opts) p) := by
  cases isSrv with
  | true =>
    cases hs : alistGet st.serverCache ("api_" ++ opts.componentId) with
    | some d => left; simp [fetchApiData, hs]
    | none =>
      have hmiss : missAt true st (apiCacheKey opts) now := hs
      rw [fetchApi_miss _ _ _ _ _ _ _ hmiss]
      by_cases hep : (opts.endpoint.getD "").isEmpty
      · left; rw [apiNetwork_noEndpoint _ _ _ _ _ _ hep]
      · cases hloop : (apiRetryLoop parseData 3 0 env.net).outcome with
        | some pd =>
          right
          refine ⟨hs, ⟨pd, ?_⟩⟩
          rw [apiNetwork_success _ _ _ _ _ _ pd (by simp [hep]) hloop]
          simp [apiCacheKey]
        | none =>
          left
          rw [apiNetwork_exhausted_server _ _ _ _ _ (by simp [hep]) hloop]
  | false =>
    left
    cases hc : alistGet st.clientCache ("api_" ++ opts.componentId) with
    | some e =>
      by_cases hfresh : now - e.timestamp < cacheExpirationTime
      · simp [fetchApiData, hc, hfresh]
      · have : fetchApiData opts parseData false st now nowStore env =
            apiNetworkResult opts parseData false st nowStore env := by
          simp [fetchApiData, hc, hfresh]
        rw [this, apiNetwork_client_serverCache]
    | none =>
      have : fetchApiData opts parseData false st now nowStore env =
          apiNetworkResult opts parseData false st nowStore env := by
        simp [fetchApiData, hc]
      rw [this, apiNetwork_client_serverCache]

theorem fetchJson_server_second (opts : FetcherOptions)
    (parseData : JsValue → List JsValue) (st : CacheState) (now nowStore : Nat)
    (resp : Option HttpResp) (res : FetchResult) (st2 : CacheState) (n : Nat)
    (h : fetchJsonData opts parseData true st now nowStore resp =
      (Except.ok res, st2, n)) :
    ∀ d, alistGet st2.serverCache (jsonCacheKey opts) = some d → d = res.data := by
  intro d hd
  cases hs : alistGet st.serverCache (jsonCacheKey opts) with
  | some cached =>
    rw [fetchJson_server_hit _ _ _ _ _ _ _ hs] at h
    simp only [Prod.mk.injEq, Except.ok.injEq] at h
    obtain ⟨h1, h2, h3⟩ := h
    subst h2
    rw [hs] at hd
    injection hd with hd2
    rw [← h1]
    exact hd2.symm
  | none =>
    have hmiss : missAt true st (jsonCacheKey opts) now := hs
    cases resp with
    | none =>
      rw [fetchJson_failure _ _ _ _ _ _ _ hmiss (Or.inl rfl)] at h
      simp at h
    | some r =>
      by_cases hok : r.ok = true
      · cases hparse : jsonParse r.body with
        | none =>
          rw [fetchJson_failure _ _ _ _ _ _ _ hmiss
            (Or.inr ⟨r, rfl, Or.inr (Or.inl hparse)⟩)] at h
          simp at h
        | some v =>
          cases hdec : decodeJsonResponse parseData v with
          | error u =>
            rw [fetchJson_failure _ _ _ _ _ _ _ hmiss
              (Or.inr ⟨r, rfl, Or.inr (Or.inr ⟨v, hparse, by rw [hdec]⟩)⟩)] at h
            simp at h
          | ok t =>
            obtain ⟨pd, ti, tp⟩ := t
            rw [fetchJson_server_success _ _ _ _ _ _ _ _ _ _ hmiss hok hparse hdec] at h
            simp only [Prod.mk.injEq, Except.ok.injEq] at h
            obtain ⟨h1, h2, h3⟩ := h
            subst h2
            have hd2 : alistGet (alistSet st.serverCache (jsonCacheKey opts) pd)
                (jsonCacheKey opts) = some d := hd
            rw [alistGet_alistSet] at hd2
            simp at hd2
            rw [← h1]
            exact hd2.symm
      · have hok2 : r.ok = false := by
          cases hokk : r.ok with
          | true => exact absurd hokk hok
          | false => rfl
        rw [fetchJson_failure _ _ _ _ _ _ _ hmiss (Or.inr ⟨r, rfl, Or.inl hok2⟩)] at h
        simp at h

theorem fetchTextFormat_server_second (cacheKey : String) (decode : String → JsValue)
    (parseData : JsValue → List JsValue) (st : CacheState) (now nowStore : Nat)
    (resp : Option HttpResp) (res : FetchResult) (st2 : CacheState) (n : Nat)
    (h : fetchTextFormat cacheKey decode parseData true st now nowStore resp =
      (Except.ok res, st2, n)) :
    ∀ d, alistGet st2.serverCache cacheKey = some d → d = res.data := by
  intro d hd
  cases hs : alistGet st.serverCache cacheKey with
  | some cached =>
    rw [fetchTextFormat_server_hit _ _ _ _ _ _ _ _ hs] at h
    simp only [Prod.mk.injEq, Except.ok.injEq] at h
    obtain ⟨h1, h2, h3⟩ := h
    subst h2
    rw [hs] at hd
    injection hd with hd2
    rw [← h1]
    exact hd2.symm
  | none =>
    have hmiss : missAt true st cacheKey now := hs
    cases resp with
    | none =>
      rw [fetchTextFormat_failure _ _ _ _ _ _ _ _ hmiss (Or.inl rfl)] at h
      simp at h
    | some r =>
      by_cases hok : r.ok = true
      · rw [fetchTextFormat_server_success _ _ _ _ _ _ _ hmiss hok] at h
        simp only [Prod.mk.injEq, Except.ok.injEq] at h
        obtain ⟨h1, h2, h3⟩ := h
        subst h2
        have hd2 : alistGet (alistSet st.serverCache cacheKey
            (parseData (decode r.body))) cacheKey = some d := hd
        rw [alistGet_alistSet] at hd2
        simp at hd2
        rw [← h1]
        exact hd2.symm
      · have hok2 : r.ok = false := by
          cases hokk : r.ok with
          | true => exact absurd hokk hok
          | false => rfl
        rw [fetchTextFormat_failure _ _ _ _ _ _ _ _ hmiss
          (Or.inr ⟨r, rfl, hok2⟩)] at h
        simp at h

theorem fetchApi_server_second (opts : FetcherOptions)
    (parseData : JsValue → List JsValue) (st : CacheState) (now nowStore : Nat)
    (env : ApiEnv) (res : FetchResult) (st2 : CacheState) (a : Nat)
    (dl : List Int) (fb : Bool)
    (h : fetchApiData opts parseData true st now nowStore env =
      ⟨Except.ok res, st2, a, dl, fb⟩) :
    ∀ d, alistGet st2.serverCache (apiCacheKey opts) = some d → d = res.data := by
  intro d hd
  cases hs : alistGet st.serverCache (apiCacheKey opts) with
  | some cached =>
    rw [fetchApi_server_hit _ _ _ _ _ _ _ hs] at h
    have h1 : Except.ok (plainResult cached) = Except.ok res := congrArg ApiOut.res h
    have h2 : st = st2 := congrArg ApiOut.state h
    subst h2
    rw [hs] at hd
    injection hd with hd2
    injection h1 with h3
    rw [← h3]
    exact hd2.symm
  | none =>
    have hmiss : missAt true st (apiCacheKey opts) now := hs
    rw [fetchApi_miss _ _ _ _ _ _ _ hmiss] at h
    by_cases hep : (opts.endpoint.getD "").isEmpty
    · rw [apiNetwork_noEndpoint _ _ _ _ _ _ hep] at h
      have h2 : st = st2 := congrArg ApiOut.state h
      subst h2
      rw [hs] at hd
      cases hd
    · cases hloop : (apiRetryLoop parseData 3 0 env.net).outcome with
      | some pd =>
        rw [apiNetwork_success _ _ _ _ _ _ pd (by simp [hep]) hloop] at h
        simp only [if_true] at h
        have h1 : Except.ok (plainResult pd) = Except.ok res := congrArg ApiOut.res h
        have h2 : ({ st with serverCache :=
            (alistSet st.serverCache ("api_" ++ opts.componentId) pd) } : CacheState) = st2 :=
          congrArg ApiOut.state h
        subst h2
        have hd2 : alistGet (alistSet st.serverCache (apiCacheKey opts) pd)
            (apiCacheKey opts) = some d := hd
        rw [alistGet_alistSet] at hd2
        simp at hd2
        injection h1 with h3
        rw [← h3]
        exact hd2.symm
      | none =>
        rw [apiNetwork_exhausted_server _ _ _ _ _ (by simp [hep]) hloop] at h
        have h2 : st = st2 := congrArg ApiOut.state h
        subst h2
        rw [hs] at hd
        cases hd

theorem alistGet_append {α : Type} (l1 l2 : List (String × α)) (k : String) :
    alistGet (l1 ++ l2) k =
      match alistGet l1 k with
      | some v => some v
      | none => alistGet l2 k := by
  induction l1 with
  | nil => simp [alistGet]
  | cons hd tl ih =>
    obtain ⟨k1, v1⟩ := hd
    by_cases h1 : k1 = k <;> simp [alistGet, h1, ih]

theorem emitterOn_get_self {κ : Type} (ls : List (String × List κ)) (ev : String)
    (cb : κ) :
    alistGet (emitterOn ls ev cb) ev = some ((alistGet ls ev).getD [] ++ [cb]) := by
  cases hg : alistGet ls ev with
  | some cbs =>
    simp [emitterOn, hg, alistGet_alistSet]
  | none =>
    simp [emitterOn, hg, alistGet_append, alistGet]

theorem emitterOn_get_other {κ : Type} (ls : List (String × List κ)) (ev ev2 : String)
    (cb : κ) (h : ¬ ev2 = ev) :
    alistGet (emitterOn ls ev cb) ev2 = alistGet ls ev2 := by
  cases hg : alistGet ls ev with
  | some cbs =>
    rw [emitterOn, hg, alistGet_alistSet]
    simp [h]
  | none =>
    rw [emitterOn, hg, alistGet_append]
    cases hg2 : alistGet ls ev2 with
    | some v => simp
    | none =>
      have h2 : ¬ ev = ev2 := fun hh => h hh.symm
      simp [alistGet, h2]

/-- Case analysis of the envelope discrimination (fetchJsonData 160–179). -/
theorem decodeJsonResponse_cases (parseData : JsValue → List JsValue) (v : JsValue) :
    (v = .null → decodeJsonResponse parseData v = .error ()) ∧
    (∀ fields xs, v = .obj fields → alistGet fields "data" = some (.arr xs) →
      decodeJsonResponse parseData v =
        .ok (parseData (.arr xs),
          jsGetOpt ((alistGet fields "pagination").getD .undefined) "totalItems",
          jsGetOpt ((alistGet fields "pagination").getD .undefined) "totalPages")) ∧
    (∀ xs, v = .arr xs →
      decodeJsonResponse parseData v = .ok (parseData (.arr xs), .undefined, .undefined)) ∧
    (nonEnvelopeShape v = true →
      decodeJsonResponse parseData v = .ok ([], .undefined, .undefined)) := by
  refine ⟨?_, ?_, ?_, ?_⟩
  · rintro rfl
    rfl
  · rintro fields xs rfl hdata
    show decodeJsonResponse parseData (.obj fields) = _
    rw [decodeJsonResponse, jsGet]
    rw [hdata]
    rfl
  · rintro xs rfl
    rfl
  · intro hshape
    cases v with
    | bool b => rfl
    | num m e => rfl
    | str s => rfl
    | obj fields =>
      have hcond : (truthy ((alistGet fields "data").getD .undefined) &&
          isArray ((alistGet fields "data").getD .undefined)) = false := by
        cases ht : truthy ((alistGet fields "data").getD .undefined) with
        | false => simp
        | true =>
          cases ha : isArray ((alistGet fields "data").getD .undefined) with
          | false => simp
          | true => simp [nonEnvelopeShape, ht, ha] at hshape
      show decodeJsonResponse parseData (.obj fields) = _
      rw [decodeJsonResponse, jsGet]
      show (if (truthy ((alistGet fields "data").getD JsValue.undefined) &&
            isArray ((alistGet fields "data").getD JsValue.undefined)) = true then
          match jsGet (JsValue.obj fields) "pagination" with
          | Except.error e => Except.error e
          | Except.ok pag => Except.ok (parseData ((alistGet fields "data").getD JsValue.undefined),
              jsGetOpt pag "totalItems", jsGetOpt pag "totalPages")
        else if isArray (JsValue.obj fields) = true then
          Except.ok (parseData (JsValue.obj fields), JsValue.undefined, JsValue.undefined)
        else Except.ok ([], JsValue.undefined, JsValue.undefined)) =
        Except.ok ([], JsValue.undefined, JsValue.undefined)
      rw [hcond]
      rfl
    | null => simp [nonEnvelopeShape] at hshape
    | undefined => simp [nonEnvelopeShape] at hshape
    | arr xs => simp [nonEnvelopeShape] at hshape

theorem fetchJson_client_expired_calls (opts : FetcherOptions)
    (parseData : JsValue → List JsValue) (st : CacheState) (now nowStore : Nat)
    (resp : Option HttpResp) (e : ClientEntry)
    (h : alistGet st.clientCache (jsonCacheKey opts) = some e)
    (hexp : ¬ (now - e.timestamp < cacheExpirationTime)) :
    (fetchJsonData opts parseData false st now nowStore resp).2.2 = 1 := by
  have hmiss : missAt false st (jsonCacheKey opts) now := by
    intro e2 he2
    rw [h] at he2
    injection he2 with he3
    rw [← he3]
    exact hexp
  cases resp with
  | none => rw [fetchJson_failure _ _ _ _ _ _ _ hmiss (Or.inl rfl)]
  | some r =>
    by_cases hok : r.ok = true
    · cases hparse : jsonParse r.body with
      | none =>
        rw [fetchJson_failure _ _ _ _ _ _ _ hmiss (Or.inr ⟨r, rfl, Or.inr (Or.inl hparse)⟩)]
      | some v =>
        cases hdec : decodeJsonResponse parseData v with
        | error u =>
          rw [fetchJson_failure _ _ _ _ _ _ _ hmiss
            (Or.inr ⟨r, rfl, Or.inr (Or.inr ⟨v, hparse, by rw [hdec]⟩)⟩)]
        | ok t =>
          obtain ⟨pd, ti, tp⟩ := t
          rw [fetchJson_client_success _ _ _ _ _ _ _ _ _ _ hmiss hok hparse hdec]
    · have hok2 : r.ok = false := by
        cases hokk : r.ok with
        | true => exact absurd hokk hok
        | false => rfl
      rw [fetchJson_failure _ _ _ _ _ _ _ hmiss (Or.inr ⟨r, rfl, Or.inl hok2⟩)]

/-! ### Claim theorems -/

/-- C6: `invalidateCache()` deletes exactly those client cache entries whose
key contains the fetcher's componentId as a substring, and — only when
executing server-side — the same for the shared server cache table; every
other cache entry is left unchanged (in particular entries keyed for a
different componentId). -/
theorem invalidateCache_deletes_exactly_matching (cid : String) (isSrv : Bool)
    (st : CacheState) (k : String) :
    (jsIncludes k cid = true →
      alistGet (invalidateCache cid isSrv st).clientCache k = none) ∧
    (jsIncludes k cid = false →
      alistGet (invalidateCache cid isSrv st).clientCache k =
        alistGet st.clientCache k) ∧
    (isSrv = true → jsIncludes k cid = true →
      alistGet (invalidateCache cid isSrv st).serverCache k = none) ∧
    (isSrv = true → jsIncludes k cid = false →
      alistGet (invalidateCache cid isSrv st).serverCache k =
        alistGet st.serverCache k) ∧
    (isSrv = false → (invalidateCache cid isSrv st).serverCache =
      st.serverCache) := by
  refine ⟨?_, ?_, ?_, ?_, ?_⟩
  · intro h
    have hf := alistGet_filter_keys (fun s => !(jsIncludes s cid)) st.clientCache k
    simp only [h, Bool.not_true, if_false] at hf
    exact hf
  · intro h
    have hf := alistGet_filter_keys (fun s => !(jsIncludes s cid)) st.clientCache k
    simp only [h, Bool.not_false, if_true] at hf
    exact hf
  · rintro rfl h
    have hf := alistGet_filter_keys (fun s => !(jsIncludes s cid)) st.serverCache k
    simp only [h, Bool.not_true, if_false] at hf
    exact hf
  · rintro rfl h
    have hf := alistGet_filter_keys (fun s => !(jsIncludes s cid)) st.serverCache k
    simp only [h, Bool.not_false, if_true] at hf
    exact hf
  · rintro rfl
    rfl

/-- Witness for C6: on a fetcher for `"UserData"`, entries keyed
`csv_UserData` and `json_UserData` are removed while `json_ProductData` is
untouched. -/
theorem invalidateCache_deletes_exactly_matching_witness :
    jsIncludes "csv_UserData" "UserData" = true ∧
    jsIncludes "json_ProductData" "UserData" = false ∧
    alistGet (invalidateCache "UserData" true
      ⟨[("json_UserData", [JsValue.num 1 0])],
       [("csv_UserData", ⟨[JsValue.num 2 0], 0, .undefined, .undefined⟩),
        ("json_ProductData", ⟨[JsValue.num 3 0], 0, .undefined, .undefined⟩)]⟩).clientCache
      "csv_UserData" = none ∧
    alistGet (invalidateCache "UserData" true
      ⟨[("json_UserData", [JsValue.num 1 0])],
       [("csv_UserData", ⟨[JsValue.num 2 0], 0, .undefined, .undefined⟩),
        ("json_ProductData", ⟨[JsValue.num 3 0], 0, .undefined, .undefined⟩)]⟩).clientCache
      "json_ProductData" =
      alistGet (⟨[("json_UserData", [JsValue.num 1 0])],
       [("csv_UserData", ⟨[JsValue.num 2 0], 0, .undefined, .undefined⟩),
        ("json_ProductData", ⟨[JsValue.num 3 0], 0, .undefined, .undefined⟩)]⟩ :
          CacheState).clientCache "json_ProductData" ∧
    alistGet (invalidateCache "UserData" true
      ⟨[("json_UserData", [JsValue.num 1 0])],
       [("csv_UserData", ⟨[JsValue.num 2 0], 0, .undefined, .undefined⟩),
        ("json_ProductData", ⟨[JsValue.num 3 0], 0, .undefined, .undefined⟩)]⟩).serverCache
      "json_UserData" = none :=
  ⟨rfl, rfl,
   (invalidateCache_deletes_exactly_matching "UserData" true _ "csv_UserData").1 rfl,
   (invalidateCache_deletes_exactly_matching "UserData" true _ "json_ProductData").2.1 rfl,
   (invalidateCache_deletes_exactly_matching "UserData" true _ "json_UserData").2.2.1 rfl rfl⟩

/-- C7: `publish(event)` invokes every callback subscribed to
`event.componentId`'s channel synchronously, in subscription order;
publishing with zero subscribers raises no error (the call is total and
invokes nothing); in a server context the event is additionally sent to
every registered push-channel client, and clients whose send throws are
removed from the active set; in a client context no broadcast happens. -/
theorem publish_order_and_broadcast (κ : Type) (st : RTState κ)
    (ev : DataChangeEvent) (cb1 cb2 : κ) :
    (alistGet st.listeners (channelName ev.componentId) = none →
      (rtPublish st ev).invoked = []) ∧
    (∀ cbs, alistGet st.listeners (channelName ev.componentId) = some cbs →
      (rtPublish st ev).invoked = cbs) ∧
    ((rtPublish (rtSubscribe (rtSubscribe st ev.componentId cb1)
        ev.componentId cb2) ev).invoked =
      (alistGet st.listeners (channelName ev.componentId)).getD [] ++ [cb1, cb2]) ∧
    (st.isServerSide = true →
      (rtPublish st ev).sentTo = st.sseClients.map SSEClient.id ∧
      (rtPublish st ev).state.sseClients = st.sseClients.filter SSEClient.sendOk ∧
      (rtPublish st ev).state.listeners = st.listeners) ∧
    (st.isServerSide = false →
      (rtPublish st ev).sentTo = [] ∧ (rtPublish st ev).state = st) := by
  refine ⟨?_, ?_, ?_, ?_, ?_⟩
  · intro h
    cases hs : st.isServerSide <;> simp [rtPublish, hs, h]
  · intro cbs h
    cases hs : st.isServerSide <;> simp [rtPublish, hs, h]
  · have hl : alistGet (rtSubscribe (rtSubscribe st ev.componentId cb1)
        ev.componentId cb2).listeners (channelName ev.componentId) =
        some ((alistGet st.listeners (channelName ev.componentId)).getD [] ++
          [cb1, cb2]) := by
      show alistGet (emitterOn (emitterOn st.listeners (channelName ev.componentId) cb1)
        (channelName ev.componentId) cb2) (channelName ev.componentId) = _
      rw [emitterOn_get_self, emitterOn_get_self]
      simp
    cases hs : (rtSubscribe (rtSubscribe st ev.componentId cb1)
        ev.componentId cb2).isServerSide <;> simp [rtPublish, hs, hl]
  · intro hs
    simp [rtPublish, hs]
  · intro hs
    simp [rtPublish, hs]

/-- Witness for C7: two subscribers fire in subscription order; with a
throwing SSE client registered, a server-side publish sends to both clients
and drops the failing one. -/
theorem publish_order_and_broadcast_witness :
    (rtPublish (rtSubscribe (rtSubscribe
        (⟨[], [⟨"a", true⟩, ⟨"b", false⟩], true⟩ : RTState Nat) "X" 1) "X" 2)
      ⟨"X", "refresh", .undefined, .undefined⟩).invoked = [1, 2] ∧
    (rtPublish (⟨[], [⟨"a", true⟩, ⟨"b", false⟩], true⟩ : RTState Nat)
      ⟨"Y", "refresh", .undefined, .undefined⟩).invoked = [] ∧
    (rtPublish (⟨[], [⟨"a", true⟩, ⟨"b", false⟩], true⟩ : RTState Nat)
      ⟨"Y", "refresh", .undefined, .undefined⟩).sentTo = ["a", "b"] ∧
    (rtPublish (⟨[], [⟨"a", true⟩, ⟨"b", false⟩], true⟩ : RTState Nat)
      ⟨"Y", "refresh", .undefined, .undefined⟩).state.sseClients = [⟨"a", true⟩] := by
  refine ⟨?_, ?_, ?_, ?_⟩
  · have h := (publish_order_and_broadcast Nat
      ⟨[], [⟨"a", true⟩, ⟨"b", false⟩], true⟩ ⟨"X", "refresh", .undefined, .undefined⟩ 1 2).2.2.1
    simpa using h
  · exact (publish_order_and_broadcast Nat ⟨[], [⟨"a", true⟩, ⟨"b", false⟩], true⟩
      ⟨"Y", "refresh", .undefined, .undefined⟩ 0 0).1 rfl
  · exact ((publish_order_and_broadcast Nat ⟨[], [⟨"a", true⟩, ⟨"b", false⟩], true⟩
      ⟨"Y", "refresh", .undefined, .undefined⟩ 0 0).2.2.2.1 rfl).1
  · exact ((publish_order_and_broadcast Nat ⟨[], [⟨"a", true⟩, ⟨"b", false⟩], true⟩
      ⟨"Y", "refresh", .undefined, .undefined⟩ 0 0).2.2.2.1 rfl).2.1

/-- C8: each non-blank TXT line is first attempted as standalone JSON;
on decode failure it falls back to the comma/colon key-value grammar with
trimmed keys and values, dropping pairs missing either side.  In particular
`name:Bob,age:30` parses to the two-field record and a JSON-object line
parses via plain JSON decode. -/
theorem txtParseLine_json_then_kv_fallback (line : String) :
    (∀ v, jsonParse line = some v → txtParseLine line = v) ∧
    (jsonParse "name:Bob,age:30" = none) ∧
    (txtParseLine "name:Bob,age:30" =
      .obj [("name", .str "Bob"), ("age", .str "30")]) ∧
    (jsonParse "\x7b\"name\":\"Bob\"\x7d" = some (.obj [("name", .str "Bob")])) ∧
    (txtParseLine "\x7b\"name\":\"Bob\"\x7d" = .obj [("name", .str "Bob")]) ∧
    (txtParseLine " name : Bob ,age" = .obj [("name", .str "Bob")]) ∧
    (txtParseLine "justtext" = .obj []) ∧
    (∀ text, parseTxtText text =
      .arr (((jsSplit text "\n").filter fun l2 => !(jsTrim l2).isEmpty).map
        txtParseLine)) := by
  refine ⟨?_, by rfl, by rfl, by rfl, by rfl, by rfl, by rfl, fun text => rfl⟩
  intro v h
  rw [txtParseLine, h]

/-- Witness for C8: the JSON-first branch applied at the concrete line
`[1]`. -/
theorem txtParseLine_json_then_kv_fallback_witness :
    txtParseLine "[1]" = JsValue.arr [JsValue.num 1 0] :=
  (txtParseLine_json_then_kv_fallback "[1]").1 (JsValue.arr [JsValue.num 1 0]) (by rfl)

/-- C9: for json, csv and txt, a network failure (rejected fetch or non-2xx
response) or a decode failure raises immediately to the caller: exactly one
network call, no retry, no fallback, no mock data, and the caches are left
unchanged. -/
theorem nonapi_failure_raises (opts : FetcherOptions)
    (parseData : JsValue → List JsValue) (isSrv : Bool) (st : CacheState)
    (now nowStore : Nat) (resp : Option HttpResp) :
    (missAt isSrv st (jsonCacheKey opts) now → failingJsonResp parseData resp →
      fetchJsonData opts parseData isSrv st now nowStore resp =
        (Except.error (), st, 1)) ∧
    (missAt isSrv st (csvCacheKey opts) now → failingResp resp →
      fetchCsvData opts parseData isSrv st now nowStore resp =
        (Except.error (), st, 1)) ∧
    (missAt isSrv st (txtCacheKey opts) now → failingResp resp →
      fetchTxtData opts parseData isSrv st now nowStore resp =
        (Except.error (), st, 1)) := by
  refine ⟨?_, ?_, ?_⟩
  · intro hmiss hfail
    exact fetchJson_failure _ _ _ _ _ _ _ hmiss hfail
  · intro hmiss hfail
    exact fetchTextFormat_failure _ _ _ _ _ _ _ _ hmiss hfail
  · intro hmiss hfail
    exact fetchTextFormat_failure _ _ _ _ _ _ _ _ hmiss hfail

/-- Witness for C9: a client-side csv fetch against empty caches with a
non-2xx response rejects, leaves the caches empty and makes one call. -/
theorem nonapi_failure_raises_witness :
    fetchCsvData ⟨"W9", none, none⟩ arrayElems false emptyCaches 0 0
      (some ⟨false, ""⟩) = (Except.error (), emptyCaches, 1) :=
  (nonapi_failure_raises ⟨"W9", none, none⟩ arrayElems false emptyCaches 0 0
    (some ⟨false, ""⟩)).2.1
    (by intro e he; simp [alistGet, emptyCaches] at he)
    (Or.inr ⟨⟨false, ""⟩, rfl, rfl⟩)

/-- Counterexample to C3 as stated: a response body decoding to JSON `null`
is "any other response shape", yet `fetchJsonData` rejects (the property
access `responseData.data` throws a `TypeError`) instead of resolving with
an empty parsed sequence. -/
theorem fetchJson_null_body_raises :
    jsonParse "null" = some JsValue.null ∧
    (fetchJsonData ⟨"UserData", none, none⟩ arrayElems false emptyCaches 0 0
      (some ⟨true, "null"⟩)).1 = Except.error () :=
  ⟨by rfl, by rfl⟩

/-- C3 (amended): for every JSON body decoded by `fetchJsonData`, an
envelope object whose `data` field is an array yields `parseData` of that
array with `totalItems`/`totalPages` read from the envelope's `pagination`
field; a bare array yields `parseData` of it with no pagination metadata;
any other non-null shape yields an empty parsed sequence without raising;
a `null` body raises to the caller. -/
theorem fetchJson_decode_shapes (opts : FetcherOptions)
    (parseData : JsValue → List JsValue) (isSrv : Bool) (st : CacheState)
    (now nowStore : Nat) (r : HttpResp) (v : JsValue)
    (hmiss : missAt isSrv st (jsonCacheKey opts) now)
    (hok : r.ok = true) (hparse : jsonParse r.body = some v) :
    (∀ fields xs, v = .obj fields → alistGet fields "data" = some (.arr xs) →
      (fetchJsonData opts parseData isSrv st now nowStore (some r)).1 =
        Except.ok ⟨parseData (.arr xs),
          jsGetOpt ((alistGet fields "pagination").getD .undefined) "totalItems",
          jsGetOpt ((alistGet fields "pagination").getD .undefined) "totalPages"⟩) ∧
    (∀ xs, v = .arr xs →
      (fetchJsonData opts parseData isSrv st now nowStore (some r)).1 =
        Except.ok ⟨parseData (.arr xs), .undefined, .undefined⟩) ∧
    (nonEnvelopeShape v = true →
      (fetchJsonData opts parseData isSrv st now nowStore (some r)).1 =
        Except.ok ⟨[], .undefined, .undefined⟩) ∧
    (v = .null →
      (fetchJsonData opts parseData isSrv st now nowStore (some r)).1 =
        Except.error ()) := by
  have hshapes := decodeJsonResponse_cases parseData v
  refine ⟨?_, ?_, ?_, ?_⟩
  · rintro fields xs rfl hdata
    have hdec := hshapes.2.1 fields xs rfl hdata
    cases isSrv with
    | true => rw [fetchJson_server_success _ _ _ _ _ _ _ _ _ _ hmiss hok hparse hdec]
    | false => rw [fetchJson_client_success _ _ _ _ _ _ _ _ _ _ hmiss hok hparse hdec]
  · rintro xs rfl
    have hdec := hshapes.2.2.1 xs rfl
    cases isSrv with
    | true => rw [fetchJson_server_success _ _ _ _ _ _ _ _ _ _ hmiss hok hparse hdec]
    | false => rw [fetchJson_client_success _ _ _ _ _ _ _ _ _ _ hmiss hok hparse hdec]
  · intro hshape
    have hdec := hshapes.2.2.2 hshape
    cases isSrv with
    | true => rw [fetchJson_server_success _ _ _ _ _ _ _ _ _ _ hmiss hok hparse hdec]
    | false => rw [fetchJson_client_success _ _ _ _ _ _ _ _ _ _ hmiss hok hparse hdec]
  · rintro rfl
    have hdec := hshapes.1 rfl
    rw [fetchJson_failure _ _ _ _ _ _ _ hmiss
      (Or.inr ⟨r, rfl, Or.inr (Or.inr ⟨JsValue.null, hparse, hdec⟩)⟩)]

/-- Witness for C3 (amended): a concrete enveloped response populates the
pagination metadata. -/
theorem fetchJson_decode_shapes_witness :
    (fetchJsonData ⟨"W3", none, none⟩ arrayElems false emptyCaches 0 0
      (some ⟨true,
        "\x7b\"data\":[1],\"pagination\":\x7b\"totalItems\":5,\"totalPages\":1\x7d\x7d"⟩)).1 =
      Except.ok ⟨[JsValue.num 1 0], JsValue.num 5 0, JsValue.num 1 0⟩ :=
  (fetchJson_decode_shapes ⟨"W3", none, none⟩ arrayElems false emptyCaches 0 0
    ⟨true, "\x7b\"data\":[1],\"pagination\":\x7b\"totalItems\":5,\"totalPages\":1\x7d\x7d"⟩
    (.obj [("data", .arr [.num 1 0]),
           ("pagination", .obj [("totalItems", .num 5 0), ("totalPages", .num 1 0)])])
    (by intro e he; simp [alistGet, emptyCaches] at he) rfl (by rfl)).1
    [("data", .arr [.num 1 0]),
     ("pagination", .obj [("totalItems", .num 5 0), ("totalPages", .num 1 0)])]
    [.num 1 0] rfl (by rfl)

/-- Counterexample to C5 as stated: for the api format, a client fetch on an
entry exactly 5 minutes old (not reused, correctly) performs two network
calls — a rate-limited attempt and a successful retry — not exactly one. -/
theorem api_expired_retry_two_calls :
    ¬ ((300000 : Nat) - 0 < cacheExpirationTime) ∧
    (fetchApiData ⟨"C5List", some "https://api.example.com/items", none⟩
      arrayElems false ⟨[], [("api_C5List", ⟨[], 0, .undefined, .undefined⟩)]⟩ 300000 300001
      ⟨[some ⟨429, some "1", ""⟩, some ⟨200, none, "[7]"⟩], none⟩).attempts = 2 ∧
    (2 : Nat) ≠ 1 :=
  ⟨by decide, by rfl, by decide⟩

/-- C5 (amended): a client cache entry is reused iff its age is strictly
below the 5-minute window; an expired entry is not reused; for json, csv
and txt exactly one network call follows, and when it succeeds a fresh
entry with the store-time timestamp replaces the old one; for the api
format the fresh-entry reuse check behaves identically but an expired entry
leads into the retry/fallback ladder rather than exactly one call. -/
theorem client_cache_expiry (opts : FetcherOptions)
    (parseData : JsValue → List JsValue) (st : CacheState)
    (now nowStore : Nat) (resp : Option HttpResp) (env : ApiEnv)
    (e : ClientEntry) :
    (alistGet st.clientCache (jsonCacheKey opts) = some e →
      (now - e.timestamp < cacheExpirationTime →
        fetchJsonData opts parseData false st now nowStore resp =
          (Except.ok ⟨e.data, e.totalItems, e.totalPages⟩, st, 0)) ∧
      (¬ now - e.timestamp < cacheExpirationTime →
        (fetchJsonData opts parseData false st now nowStore resp).2.2 = 1 ∧
        (∀ r v pd ti tp, resp = some r → r.ok = true →
          jsonParse r.body = some v →
          decodeJsonResponse parseData v = .ok (pd, ti, tp) →
          alistGet (fetchJsonData opts parseData false st now nowStore
            resp).2.1.clientCache (jsonCacheKey opts) =
            some ⟨pd, nowStore, ti, tp⟩))) ∧
    (alistGet st.clientCache (csvCacheKey opts) = some e →
      (now - e.timestamp < cacheExpirationTime →
        fetchCsvData opts parseData false st now nowStore resp =
          (Except.ok (plainResult e.data), st, 0)) ∧
      (¬ now - e.timestamp < cacheExpirationTime →
        (fetchCsvData opts parseData false st now nowStore resp).2.2 = 1 ∧
        (∀ r, resp = some r → r.ok = true →
          alistGet (fetchCsvData opts parseData false st now nowStore
            resp).2.1.clientCache (csvCacheKey opts) =
            some ⟨parseData (parseCsvText r.body), nowStore, .undefined, .undefined⟩))) ∧
    (alistGet st.clientCache (txtCacheKey opts) = some e →
      (now - e.timestamp < cacheExpirationTime →
        fetchTxtData opts parseData false st now nowStore resp =
          (Except.ok (plainResult e.data), st, 0)) ∧
      (¬ now - e.timestamp < cacheExpirationTime →
        (fetchTxtData opts parseData false st now nowStore resp).2.2 = 1 ∧
        (∀ r, resp = some r → r.ok = true →
          alistGet (fetchTxtData opts parseData false st now nowStore
            resp).2.1.clientCache (txtCacheKey opts) =
            some ⟨parseData (parseTxtText r.body), nowStore, .undefined, .undefined⟩))) ∧
    (alistGet st.clientCache (apiCacheKey opts) = some e →
      now - e.timestamp < cacheExpirationTime →
        fetchApiData opts parseData false st now nowStore env =
          ⟨Except.ok (plainResult e.data), st, 0, [], false⟩) := by
  refine ⟨?_, ?_, ?_, ?_⟩
  · intro h
    constructor
    · intro hfresh
      exact fetchJson_client_hit _ _ _ _ _ _ _ h hfresh
    · intro hexp
      have hmiss : missAt false st (jsonCacheKey opts) now := by
        intro e2 he2
        rw [h] at he2
        injection he2 with he3
        rw [← he3]
        exact hexp
      refine ⟨fetchJson_client_expired_calls _ _ _ _ _ _ _ h hexp, ?_⟩
      intro r v pd ti tp hr hok hparse hdec
      subst hr
      rw [fetchJson_client_success _ _ _ _ _ _ _ _ _ _ hmiss hok hparse hdec]
      show alistGet (alistSet st.clientCache (jsonCacheKey opts)
        ⟨pd, nowStore, ti, tp⟩) (jsonCacheKey opts) = _
      rw [alistGet_alistSet]
      simp
  · intro h
    constructor
    · intro hfresh
      exact fetchTextFormat_client_hit _ _ _ _ _ _ _ _ h hfresh
    · intro hexp
      have hmiss : missAt false st (csvCacheKey opts) now := by
        intro e2 he2
        rw [h] at he2
        injection he2 with he3
        rw [← he3]
        exact hexp
      refine ⟨(fetchTextFormat_client_expired _ _ _ _ _ _ _ _ h hexp).1, ?_⟩
      intro r hr hok
      subst hr
      show alistGet (fetchTextFormat (csvCacheKey opts) parseCsvText parseData
        false st now nowStore (some r)).2.1.clientCache (csvCacheKey opts) = _
      rw [fetchTextFormat_client_success _ _ _ _ _ _ _ hmiss hok]
      show alistGet (alistSet st.clientCache (csvCacheKey opts)
        ⟨parseData (parseCsvText r.body), nowStore, .undefined, .undefined⟩)
        (csvCacheKey opts) = _
      rw [alistGet_alistSet]
      simp
  · intro h
    constructor
    · intro hfresh
      exact fetchTextFormat_client_hit _ _ _ _ _ _ _ _ h hfresh
    · intro hexp
      have hmiss : missAt false st (txtCacheKey opts) now := by
        intro e2 he2
        rw [h] at he2
        injection he2 with he3
        rw [← he3]
        exact hexp
      refine ⟨(fetchTextFormat_client_expired _ _ _ _ _ _ _ _ h hexp).1, ?_⟩
      intro r hr hok
      subst hr
      show alistGet (fetchTextFormat (txtCacheKey opts) parseTxtText parseData
        false st now nowStore (some r)).2.1.clientCache (txtCacheKey opts) = _
      rw [fetchTextFormat_client_success _ _ _ _ _ _ _ hmiss hok]
      show alistGet (alistSet st.clientCache (txtCacheKey opts)
        ⟨parseData (parseTxtText r.body), nowStore, .undefined, .undefined⟩)
        (txtCacheKey opts) = _
      rw [alistGet_alistSet]
      simp
  · intro h hfresh
    exact fetchApi_client_hit _ _ _ _ _ _ _ h hfresh

/-- Witness for C5 (amended): a fresh entry (age 1 ms) is reused on a json
client fetch; an entry exactly at the window is not reused and one network
call stores a fresh entry. -/
theorem client_cache_expiry_witness :
    (fetchJsonData ⟨"W5", none, none⟩ arrayElems false
      ⟨[], [("json_W5", ⟨[JsValue.num 9 0], 0, .undefined, .undefined⟩)]⟩ 1 1
      (some ⟨true, "[4]"⟩)) =
      (Except.ok ⟨[JsValue.num 9 0], .undefined, .undefined⟩,
       ⟨[], [("json_W5", ⟨[JsValue.num 9 0], 0, .undefined, .undefined⟩)]⟩, 0) ∧
    (fetchJsonData ⟨"W5", none, none⟩ arrayElems false
      ⟨[], [("json_W5", ⟨[JsValue.num 9 0], 0, .undefined, .undefined⟩)]⟩ 300000 300001
      (some ⟨true, "[4]"⟩)).2.2 = 1 ∧
    alistGet (fetchJsonData ⟨"W5", none, none⟩ arrayElems false
      ⟨[], [("json_W5", ⟨[JsValue.num 9 0], 0, .undefined, .undefined⟩)]⟩ 300000 300001
      (some ⟨true, "[4]"⟩)).2.1.clientCache "json_W5" =
      some ⟨[JsValue.num 4 0], 300001, .undefined, .undefined⟩ := by
  refine ⟨?_, ?_, ?_⟩
  · exact ((client_cache_expiry ⟨"W5", none, none⟩ arrayElems
      ⟨[], [("json_W5", ⟨[JsValue.num 9 0], 0, .undefined, .undefined⟩)]⟩ 1 1
      (some ⟨true, "[4]"⟩) ⟨[], none⟩ ⟨[JsValue.num 9 0], 0, .undefined, .undefined⟩).1
      (by rfl)).1 (by decide)
  · exact (((client_cache_expiry ⟨"W5", none, none⟩ arrayElems
      ⟨[], [("json_W5", ⟨[JsValue.num 9 0], 0, .undefined, .undefined⟩)]⟩ 300000 300001
      (some ⟨true, "[4]"⟩) ⟨[], none⟩ ⟨[JsValue.num 9 0], 0, .undefined, .undefined⟩).1
      (by rfl)).2 (by decide)).1
  · exact (((client_cache_expiry ⟨"W5", none, none⟩ arrayElems
      ⟨[], [("json_W5", ⟨[JsValue.num 9 0], 0, .undefined, .undefined⟩)]⟩ 300000 300001
      (some ⟨true, "[4]"⟩) ⟨[], none⟩ ⟨[JsValue.num 9 0], 0, .undefined, .undefined⟩).1
      (by rfl)).2 (by decide)).2 ⟨true, "[4]"⟩ (.arr [.num 4 0]) [.num 4 0]
      .undefined .undefined rfl rfl (by rfl) (by rfl)

/-- C4: on every format path invoked server-side, a present server-cache
key is answered immediately from the cache — for any current time, with no
network call and the state unchanged; no fetch ever removes or changes an
existing server-cache entry (only `invalidateCache` deletes); and a second
server-side fetch whose key is in the cache returns the data of the first
fetch unchanged with no network call. -/
theorem server_cache_no_expiry (opts : FetcherOptions)
    (parseData : JsValue → List JsValue) (b : Bool) (st : CacheState)
    (now nowStore now2 nowStore2 : Nat) (resp resp2 : Option HttpResp)
    (env env2 : ApiEnv) :
    (∀ d, alistGet st.serverCache (jsonCacheKey opts) = some d →
      fetchJsonData opts parseData true st now nowStore resp =
        (Except.ok (plainResult d), st, 0)) ∧
    (∀ d, alistGet st.serverCache (csvCacheKey opts) = some d →
      fetchCsvData opts parseData true st now nowStore resp =
        (Except.ok (plainResult d), st, 0)) ∧
    (∀ d, alistGet st.serverCache (txtCacheKey opts) = some d →
      fetchTxtData opts parseData true st now nowStore resp =
        (Except.ok (plainResult d), st, 0)) ∧
    (∀ d, alistGet st.serverCache (apiCacheKey opts) = some d →
      fetchApiData opts parseData true st now nowStore env =
        ⟨Except.ok (plainResult d), st, 0, [], false⟩) ∧
    (∀ k v, alistGet st.serverCache k = some v →
      alistGet (fetchJsonData opts parseData b st now nowStore
        resp).2.1.serverCache k = some v ∧
      alistGet (fetchCsvData opts parseData b st now nowStore
        resp).2.1.serverCache k = some v ∧
      alistGet (fetchTxtData opts parseData b st now nowStore
        resp).2.1.serverCache k = some v ∧
      alistGet (fetchApiData opts parseData b st now nowStore
        env).state.serverCache k = some v) ∧
    (∀ res st2 n, fetchJsonData opts parseData true st now nowStore resp =
        (Except.ok res, st2, n) →
      ∀ d, alistGet st2.serverCache (jsonCacheKey opts) = some d →
        d = res.data ∧
        fetchJsonData opts parseData true st2 now2 nowStore2 resp2 =
          (Except.ok (plainResult d), st2, 0)) ∧
    (∀ res st2 n, fetchCsvData opts parseData true st now nowStore resp =
        (Except.ok res, st2, n) →
      ∀ d, alistGet st2.serverCache (csvCacheKey opts) = some d →
        d = res.data ∧
        fetchCsvData opts parseData true st2 now2 nowStore2 resp2 =
          (Except.ok (plainResult d), st2, 0)) ∧
    (∀ res st2 n, fetchTxtData opts parseData true st now nowStore resp =
        (Except.ok res, st2, n) →
      ∀ d, alistGet st2.serverCache (txtCacheKey opts) = some d →
        d = res.data ∧
        fetchTxtData opts parseData true st2 now2 nowStore2 resp2 =
          (Except.ok (plainResult d), st2, 0)) ∧
    (∀ res st2 a dl fb, fetchApiData opts parseData true st now nowStore env =
        ⟨Except.ok res, st2, a, dl, fb⟩ →
      ∀ d, alistGet st2.serverCache (apiCacheKey opts) = some d →
        d = res.data ∧
        fetchApiData opts parseData true st2 now2 nowStore2 env2 =
          ⟨Except.ok (plainResult d), st2, 0, [], false⟩) := by
  refine ⟨?_, ?_, ?_, ?_, ?_, ?_, ?_, ?_, ?_⟩
  · intro d hd
    exact fetchJson_server_hit _ _ _ _ _ _ _ hd
  · intro d hd
    exact fetchTextFormat_server_hit _ _ _ _ _ _ _ _ hd
  · intro d hd
    exact fetchTextFormat_server_hit _ _ _ _ _ _ _ _ hd
  · intro d hd
    exact fetchApi_server_hit _ _ _ _ _ _ _ hd
  · intro k v hkv
    refine ⟨?_, ?_, ?_, ?_⟩
    · exact serverTable_preserved
        (fetchJson_serverCache_shape opts parseData b st now nowStore resp) hkv
    · exact serverTable_preserved
        (fetchTextFormat_serverCache_shape (csvCacheKey opts) parseCsvText
          parseData b st now nowStore resp) hkv
    · exact serverTable_preserved
        (fetchTextFormat_serverCache_shape (txtCacheKey opts) parseTxtText
          parseData b st now nowStore resp) hkv
    · exact serverTable_preserved
        (fetchApi_serverCache_shape opts parseData b st now nowStore env) hkv
  · intro res st2 n h d hd
    exact ⟨fetchJson_server_second _ _ _ _ _ _ _ _ _ h d hd,
      fetchJson_server_hit _ _ _ _ _ _ _ hd⟩
  · intro res st2 n h d hd
    exact ⟨fetchTextFormat_server_second _ _ _ _ _ _ _ _ _ _ h d hd,
      fetchTextFormat_server_hit _ _ _ _ _ _ _ _ hd⟩
  · intro res st2 n h d hd
    exact ⟨fetchTextFormat_server_second _ _ _ _ _ _ _ _ _ _ h d hd,
      fetchTextFormat_server_hit _ _ _ _ _ _ _ _ hd⟩
  · intro res st2 a dl fb h d hd
    exact ⟨fetchApi_server_second _ _ _ _ _ _ _ _ _ _ _ h d hd,
      fetchApi_server_hit _ _ _ _ _ _ _ hd⟩

/-- Witness for C4: a first server-side json fetch of `[3]` stores the
parsed data; the second fetch returns it unchanged from the cache with no
network call, at any later time. -/
theorem server_cache_no_expiry_witness :
    fetchJsonData ⟨"W4", none, none⟩ arrayElems true emptyCaches 0 0
      (some ⟨true, "[3]"⟩) =
      (Except.ok ⟨[JsValue.num 3 0], .undefined, .undefined⟩,
       ⟨[("json_W4", [JsValue.num 3 0])], []⟩, 1) ∧
    fetchJsonData ⟨"W4", none, none⟩ arrayElems true
        ⟨[("json_W4", [JsValue.num 3 0])], []⟩ 99999999 99999999 none =
      (Except.ok (plainResult [JsValue.num 3 0]),
       ⟨[("json_W4", [JsValue.num 3 0])], []⟩, 0) := by
  constructor
  · rfl
  · exact (server_cache_no_expiry ⟨"W4", none, none⟩ arrayElems true
      ⟨[("json_W4", [JsValue.num 3 0])], []⟩ 99999999 99999999 0 0 none none
      ⟨[], none⟩ ⟨[], none⟩).1 [JsValue.num 3 0] (by rfl)

/-- C10 (implicit): the server cache stores only the parsed data array, so
a server-cache hit answers with `totalItems`/`totalPages` undefined even
when the originally fetched envelope carried them, while a client-cache
hit restores the metadata stored with the entry. -/
theorem server_cache_drops_pagination (opts : FetcherOptions)
    (parseData : JsValue → List JsValue) (st : CacheState)
    (now nowStore now2 nowStore2 : Nat) (resp resp2 : Option HttpResp)
    (r : HttpResp) (v : JsValue) (pd : List JsValue) (ti tp : JsValue) :
    (∀ d, alistGet st.serverCache (jsonCacheKey opts) = some d →
      (fetchJsonData opts parseData true st now nowStore resp).1 =
        Except.ok ⟨d, .undefined, .undefined⟩) ∧
    (missAt true st (jsonCacheKey opts) now → r.ok = true →
     jsonParse r.body = some v →
     decodeJsonResponse parseData v = .ok (pd, ti, tp) →
      (fetchJsonData opts parseData true st now nowStore (some r)).1 =
        Except.ok ⟨pd, ti, tp⟩ ∧
      fetchJsonData opts parseData true
        { st with serverCache := (alistSet st.serverCache (jsonCacheKey opts) pd) }
        now2 nowStore2 resp2 =
        (Except.ok (plainResult pd),
         { st with serverCache := (alistSet st.serverCache (jsonCacheKey opts) pd) },
         0)) ∧
    (missAt false st (jsonCacheKey opts) now → r.ok = true →
     jsonParse r.body = some v →
     decodeJsonResponse parseData v = .ok (pd, ti, tp) →
     now2 - nowStore < cacheExpirationTime →
      (fetchJsonData opts parseData false st now nowStore (some r)).1 =
        Except.ok ⟨pd, ti, tp⟩ ∧
      fetchJsonData opts parseData false
        { st with clientCache := (alistSet st.clientCache (jsonCacheKey opts)
            ⟨pd, nowStore, ti, tp⟩) }
        now2 nowStore2 resp2 =
        (Except.ok ⟨pd, ti, tp⟩,
         { st with clientCache := (alistSet st.clientCache (jsonCacheKey opts)
             ⟨pd, nowStore, ti, tp⟩) },
         0)) := by
  refine ⟨?_, ?_, ?_⟩
  · intro d hd
    rw [fetchJson_server_hit _ _ _ _ _ _ _ hd]
    rfl
  · intro hmiss hok hparse hdec
    constructor
    · rw [fetchJson_server_success _ _ _ _ _ _ _ _ _ _ hmiss hok hparse hdec]
    · refine fetchJson_server_hit _ _ _ _ _ _ pd ?_
      show alistGet (alistSet st.serverCache (jsonCacheKey opts) pd)
        (jsonCacheKey opts) = some pd
      rw [alistGet_alistSet]
      simp
  · intro hmiss hok hparse hdec hfresh
    constructor
    · rw [fetchJson_client_success _ _ _ _ _ _ _ _ _ _ hmiss hok hparse hdec]
    · have hhit := fetchJson_client_hit opts parseData
        { st with clientCache := (alistSet st.clientCache (jsonCacheKey opts)
            ⟨pd, nowStore, ti, tp⟩) }
        now2 nowStore2 resp2 ⟨pd, nowStore, ti, tp⟩ ?_ hfresh
      · exact hhit
      · show alistGet (alistSet st.clientCache (jsonCacheKey opts)
          ⟨pd, nowStore, ti, tp⟩) (jsonCacheKey opts) = _
        rw [alistGet_alistSet]
        simp

/-- Witness for C10: after fetching the envelope `data [1], totalItems 5,
totalPages 1` server-side, the server-cache hit loses the metadata; after
the same fetch client-side, the client-cache hit restores it. -/
theorem server_cache_drops_pagination_witness :
    (fetchJsonData ⟨"W10", none, none⟩ arrayElems true emptyCaches 0 0
      (some ⟨true,
        "\x7b\"data\":[1],\"pagination\":\x7b\"totalItems\":5,\"totalPages\":1\x7d\x7d"⟩)).1 =
      Except.ok ⟨[JsValue.num 1 0], JsValue.num 5 0, JsValue.num 1 0⟩ ∧
    fetchJsonData ⟨"W10", none, none⟩ arrayElems true
      ⟨[("json_W10", [JsValue.num 1 0])], []⟩ 7 7 none =
      (Except.ok ⟨[JsValue.num 1 0], JsValue.undefined, JsValue.undefined⟩,
       ⟨[("json_W10", [JsValue.num 1 0])], []⟩, 0) ∧
    ¬ (JsValue.num 5 0 = JsValue.undefined) ∧
    fetchJsonData ⟨"W10", none, none⟩ arrayElems false
      ⟨[], [("json_W10", ⟨[JsValue.num 1 0], 0, JsValue.num 5 0, JsValue.num 1 0⟩)]⟩
      100 100 none =
      (Except.ok ⟨[JsValue.num 1 0], JsValue.num 5 0, JsValue.num 1 0⟩,
       ⟨[], [("json_W10", ⟨[JsValue.num 1 0], 0, JsValue.num 5 0, JsValue.num 1 0⟩)]⟩,
       0) := by
  have hbase := server_cache_drops_pagination ⟨"W10", none, none⟩ arrayElems
    emptyCaches 0 0 7 7
    (some ⟨true,
      "\x7b\"data\":[1],\"pagination\":\x7b\"totalItems\":5,\"totalPages\":1\x7d\x7d"⟩)
    none
    ⟨true, "\x7b\"data\":[1],\"pagination\":\x7b\"totalItems\":5,\"totalPages\":1\x7d\x7d"⟩
    (.obj [("data", .arr [.num 1 0]),
           ("pagination", .obj [("totalItems", .num 5 0), ("totalPages", .num 1 0)])])
    [.num 1 0] (.num 5 0) (.num 1 0)
  have hsrv := hbase.2.1 (by rfl) rfl (by rfl) (by rfl)
  refine ⟨hsrv.1, ?_, by simp, ?_⟩
  · exact hsrv.2
  · have hcli := hbase.2.2 (by intro e he; simp [alistGet, emptyCaches] at he)
      rfl (by rfl) (by rfl) (by decide)
    exact hcli.2

/-- C1: on a cache miss with a configured endpoint, `fetchApiData` always
settles with `ok` — never rejects; the retry loop makes at most 3 attempts;
when all attempts fail, client-side a single fallback read is tried and its
data returned if it delivers, otherwise (and always server-side) the result
is the built-in mock data selected by substring matching on componentId:
containing `"User"` yields the mock users, containing `"Product"` yields
the mock products, anything else yields the empty list. -/
theorem fetchApi_always_resolves (opts : FetcherOptions)
    (parseData : JsValue → List JsValue) (isSrv : Bool) (st : CacheState)
    (now nowStore : Nat) (env : ApiEnv)
    (hep : (opts.endpoint.getD "").isEmpty = false)
    (hmiss : missAt isSrv st (apiCacheKey opts) now) :
    (∃ w, (fetchApiData opts parseData isSrv st now nowStore env).res =
      Except.ok w) ∧
    (fetchApiData opts parseData isSrv st now nowStore env).attempts ≤ 3 ∧
    ((apiRetryLoop parseData 3 0 env.net).outcome = none →
      (isSrv = true →
        (fetchApiData opts parseData isSrv st now nowStore env).res =
          Except.ok (plainResult (getMockData opts.componentId)) ∧
        (fetchApiData opts parseData isSrv st now nowStore env).fallbackUsed =
          false) ∧
      (isSrv = false →
        (fetchApiData opts parseData isSrv st now nowStore env).fallbackUsed =
          true ∧
        (apiFallbackData parseData env.fallbackResp = none →
          (fetchApiData opts parseData isSrv st now nowStore env).res =
            Except.ok (plainResult (getMockData opts.componentId))) ∧
        (∀ d2, apiFallbackData parseData env.fallbackResp = some d2 →
          (fetchApiData opts parseData isSrv st now nowStore env).res =
            Except.ok (plainResult d2)))) ∧
    (jsIncludes opts.componentId "User" = true →
      getMockData opts.componentId = mockUsers) ∧
    (jsIncludes opts.componentId "User" = false →
      jsIncludes opts.componentId "Product" = true →
      getMockData opts.componentId = mockProducts) ∧
    (jsIncludes opts.componentId "User" = false →
      jsIncludes opts.componentId "Product" = false →
      getMockData opts.componentId = []) := by
  have hmain := fetchApi_miss opts parseData isSrv st now nowStore env hmiss
  refine ⟨fetchApi_res_ok _ _ _ _ _ _ _, ?_, ?_, ?_, ?_, ?_⟩
  · rw [hmain]
    cases hloop : (apiRetryLoop parseData 3 0 env.net).outcome with
    | some pd =>
      rw [apiNetwork_success _ _ _ _ _ _ pd hep hloop]
      cases isSrv with
      | true =>
        simpa using apiRetryLoop_attempts_le parseData 3 0 env.net
      | false =>
        simpa using apiRetryLoop_attempts_le parseData 3 0 env.net
    | none =>
      cases isSrv with
      | true =>
        rw [apiNetwork_exhausted_server _ _ _ _ _ hep hloop]
        exact apiRetryLoop_attempts_le parseData 3 0 env.net
      | false =>
        rw [apiNetwork_exhausted_client _ _ _ _ _ hep hloop]
        cases hf : apiFallbackData parseData env.fallbackResp with
        | some d2 => exact apiRetryLoop_attempts_le parseData 3 0 env.net
        | none => exact apiRetryLoop_attempts_le parseData 3 0 env.net
  · intro hloop
    constructor
    · rintro rfl
      rw [hmain, apiNetwork_exhausted_server _ _ _ _ _ hep hloop]
      exact ⟨rfl, rfl⟩
    · rintro rfl
      rw [hmain, apiNetwork_exhausted_client _ _ _ _ _ hep hloop]
      refine ⟨?_, ?_, ?_⟩
      · cases hf : apiFallbackData parseData env.fallbackResp with
        | some d2 => rfl
        | none => rfl
      · intro hf
        rw [hf]
      · intro d2 hf
        rw [hf]
  · intro hu
    simp [getMockData, hu]
  · intro hu hp
    simp [getMockData, hu, hp]
  · intro hu hp
    simp [getMockData, hu, hp]

/-- Witness for C1: componentId `"ProductList"`, three rejected attempts,
no usable fallback — the call still resolves, with the mock products. -/
theorem fetchApi_always_resolves_witness :
    (fetchApiData ⟨"ProductList", some "https://api.example.com/items", none⟩
      arrayElems false emptyCaches 0 0 ⟨[none, none, none], none⟩).res =
      Except.ok (plainResult mockProducts) ∧
    (fetchApiData ⟨"ProductList", some "https://api.example.com/items", none⟩
      arrayElems false emptyCaches 0 0 ⟨[none, none, none], none⟩).attempts ≤ 3 := by
  have h := fetchApi_always_resolves
    ⟨"ProductList", some "https://api.example.com/items", none⟩ arrayElems false
    emptyCaches 0 0 ⟨[none, none, none], none⟩ rfl
    (by intro e he; simp [alistGet, emptyCaches] at he)
  refine ⟨?_, h.2.1⟩
  have h2 := ((h.2.2.1 (by rfl)).2 rfl).2.1 (by rfl)
  rw [h2, h.2.2.2.2.1 (by rfl) (by rfl)]

/-- Counterexample to C2 as stated: a 429 response with no `Retry-After`
header waits 5000 ms (the code defaults the header to `"5"`), not
`2 ^ attempt` seconds, which at attempt 0 would be 1000 ms. -/
theorem retry_after_absent_default_5s :
    (fetchApiData ⟨"C2X", some "https://api.example.com/items", none⟩
      arrayElems false emptyCaches 0 0
      ⟨[some ⟨429, none, ""⟩, some ⟨200, none, "[7]"⟩], none⟩).delays =
      [(5000 : Int)] ∧
    (5000 : Int) ≠ 2 ^ 0 * 1000 :=
  ⟨by rfl, by decide⟩

/-- C2 (amended): a failed attempt is retried up to 3 total attempts; a 429
waits the `Retry-After` value in seconds converted to milliseconds when it
parses to a nonzero integer, 5 seconds when the header is absent or empty,
and `2 ^ attempt` seconds when it is unparsable or zero; every other
failure waits `2 ^ attempt` seconds.  The sequence
`[429 (Retry-After: 1), 500, 200 with payload]` gives exactly 3 attempts
with strictly increasing delays, the parsed payload returned and cached. -/
theorem api_retry_backoff (parseData : JsValue → List JsValue)
    (h : Option String) (b : String) (k rem : Nat) (r : ApiResponse)
    (rest : List (Option ApiResponse)) :
    (retryWait429 h k = specRetry429Delay h k) ∧
    (apiRetryLoop parseData (rem + 1) k (some ⟨429, h, b⟩ :: rest) =
      ⟨specRetry429Delay h k ::
         (apiRetryLoop parseData rem (k + 1) rest).delays,
       (apiRetryLoop parseData rem (k + 1) rest).attempts + 1,
       (apiRetryLoop parseData rem (k + 1) rest).outcome⟩) ∧
    (apiRetryLoop parseData (rem + 1) k (none :: rest) =
      ⟨(2 ^ k * 1000 : Int) ::
         (apiRetryLoop parseData rem (k + 1) rest).delays,
       (apiRetryLoop parseData rem (k + 1) rest).attempts + 1,
       (apiRetryLoop parseData rem (k + 1) rest).outcome⟩) ∧
    (¬ r.status = 429 → respOk r = false →
      apiRetryLoop parseData (rem + 1) k (some r :: rest) =
        ⟨(2 ^ k * 1000 : Int) ::
           (apiRetryLoop parseData rem (k + 1) rest).delays,
         (apiRetryLoop parseData rem (k + 1) rest).attempts + 1,
         (apiRetryLoop parseData rem (k + 1) rest).outcome⟩) ∧
    (fetchApiData ⟨"C2List", some "https://api.example.com/items", none⟩
      arrayElems false emptyCaches 0 9
      ⟨[some ⟨429, some "1", ""⟩, some ⟨500, none, ""⟩,
        some ⟨200, none, "[7]"⟩], none⟩).attempts = 3 ∧
    (fetchApiData ⟨"C2List", some "https://api.example.com/items", none⟩
      arrayElems false emptyCaches 0 9
      ⟨[some ⟨429, some "1", ""⟩, some ⟨500, none, ""⟩,
        some ⟨200, none, "[7]"⟩], none⟩).delays = [(1000 : Int), 2000] ∧
    ((1000 : Int) < 2000) ∧
    (fetchApiData ⟨"C2List", some "https://api.example.com/items", none⟩
      arrayElems false emptyCaches 0 9
      ⟨[some ⟨429, some "1", ""⟩, some ⟨500, none, ""⟩,
        some ⟨200, none, "[7]"⟩], none⟩).res =
      Except.ok (plainResult [JsValue.num 7 0]) ∧
    alistGet (fetchApiData ⟨"C2List", some "https://api.example.com/items", none⟩
      arrayElems false emptyCaches 0 9
      ⟨[some ⟨429, some "1", ""⟩, some ⟨500, none, ""⟩,
        some ⟨200, none, "[7]"⟩], none⟩).state.clientCache "api_C2List" =
      some ⟨[JsValue.num 7 0], 9, .undefined, .undefined⟩ := by
  refine ⟨retryWait429_eq_spec h k, ?_, apiRetryLoop_reject_step parseData rem k rest,
    ?_, by rfl, by rfl, by decide, by rfl, by rfl⟩
  · rw [apiRetryLoop_429_step parseData rem k h b rest, retryWait429_eq_spec]
  · intro h429 hok
    exact apiRetryLoop_httpFail_step parseData rem k r rest h429 hok

/-- Witness for C2 (amended): the non-429 failure step applied to a
concrete 500 response at attempt 0. -/
theorem api_retry_backoff_witness :
    apiRetryLoop arrayElems 3 0 [some ⟨500, none, ""⟩] =
      ⟨(2 ^ 0 * 1000 : Int) :: (apiRetryLoop arrayElems 2 1 []).delays,
       (apiRetryLoop arrayElems 2 1 []).attempts + 1,
       (apiRetryLoop arrayElems 2 1 []).outcome⟩ :=
  (api_retry_backoff arrayElems none "" 0 2 ⟨500, none, ""⟩ []).2.2.2.1
    (by decide) (by decide)
